import Mathlib

/-!
# sf-processor: pipeline plugin cache, batching exporter and telemetry transcoder

A shallow embedding of

* `src/processor/pipeline/plugin_cache.go` (`PluginCache`),
* `src/core/exporter/exporter.go` (`Exporter`),
* `src/core/exporter/telemetry.go` (`TelemetryRecord`),

followed by theorems about the embedded functions.

Conventions.  Go strings are embedded as Lean strings (sequences of Unicode
scalar values).  A Go `map[string]T` that is only ever indexed and assigned is an
association list read at its first matching key.  A Go function that can
return an `error` or panic returns a `Result`.
-/

set_option autoImplicit false

/-! ## Go runtime vocabulary -/

/-- Outcome of a Go call: a value, a returned `error`, or a run-time panic. -/
inductive Result (α : Type) where
  | ok (v : α)
  | err (msg : String)
  | panic (msg : String)
  deriving DecidableEq, Repr

namespace Result

/-- Sequencing of Go statements: an error or a panic ends the function. -/
def bind {α β : Type} (r : Result α) (f : α → Result β) : Result β :=
  match r with
  | ok v => f v
  | err m => err m
  | panic m => panic m

/-- The value of a call that returned, `d` otherwise. -/
def getD {α : Type} (r : Result α) (d : α) : α :=
  match r with
  | ok v => v
  | _ => d

/-- True when the call panicked. -/
def isPanic {α : Type} : Result α → Bool
  | panic _ => true
  | _ => false

/-- True when the call returned a non-nil `error`. -/
def isErr {α : Type} : Result α → Bool
  | err _ => true
  | _ => false

end Result

/-- A Go `map[string]V`, newest binding first. -/
abbrev GoMap (V : Type) := List (String × V)

namespace GoMap

/-- The comma-ok read `v, ok := m[k]`. -/
def get? {V : Type} : GoMap V → String → Option V
  | [], _ => none
  | (k', v) :: m, k => if k' = k then some v else get? m k

/-- The assignment `m[k] = v`. -/
def set {V : Type} (m : GoMap V) (k : String) (v : V) : GoMap V := (k, v) :: m

end GoMap

/-- Two's-complement wrap of a Go `int` (64 bits). -/
def wrapInt64 (i : Int) : Int :=
  (i + 9223372036854775808) % 18446744073709551616 - 9223372036854775808

namespace strings

/-- Go `unicode.IsSpace`. -/
def isSpace (c : Char) : Bool :=
  let n := c.toNat
  (9 ≤ n && n ≤ 13) || n = 32 || n = 0x85 || n = 0xA0 || n = 0x1680 ||
    (0x2000 ≤ n && n ≤ 0x200A) || n = 0x2028 || n = 0x2029 || n = 0x202F ||
    n = 0x205F || n = 0x3000

/-- Scanner of `strings.Fields`: `cur` is the token being read, reversed. -/
def fieldsAux : List Char → List Char → List (List Char)
  | [], cur => if cur.isEmpty then [] else [cur.reverse]
  | c :: cs, cur =>
    if isSpace c then
      if cur.isEmpty then fieldsAux cs [] else cur.reverse :: fieldsAux cs []
    else fieldsAux cs (c :: cur)

/-- Go `strings.Fields`: the maximal runs of non-space characters. -/
def Fields (s : String) : List String := (fieldsAux s.data []).map String.mk

/-- Scanner of `strings.Split` for a non-empty separator: `skip` counts the
characters of a matched separator still to be dropped. -/
def splitAux (sep : List Char) : List Char → Nat → List Char → List (List Char)
  | [], _, cur => [cur.reverse]
  | _ :: cs, skip + 1, cur => splitAux sep cs skip cur
  | c :: cs, 0, cur =>
    if sep.isPrefixOf (c :: cs) then cur.reverse :: splitAux sep cs (sep.length - 1) []
    else splitAux sep cs 0 (c :: cur)

/-- Go `strings.Split`: with an empty separator the string is exploded into
its characters. -/
def Split (s sep : String) : List String :=
  if sep.data.isEmpty then s.data.map (fun c => String.mk [c])
  else (splitAux sep.data s.data 0 []).map String.mk

/-- Go `isSeparator` of package `strings`: letters, digits and the underscore
are not separators; of the other characters, the ASCII ones and the spaces
are. -/
def isSeparator (c : Char) : Bool :=
  if c.toNat ≤ 0x7F then !(c.isAlphanum || c = '_')
  else if c.isAlphanum then false
  else isSpace c

/-- Scanner of `strings.Title`: `prev` is the previous character. -/
def titleAux : Char → List Char → List Char
  | _, [] => []
  | prev, c :: cs => (if isSeparator prev then c.toUpper else c) :: titleAux c cs

/-- Go `strings.Title` on ASCII letters: the first letter of every word is
upper-cased. -/
def Title (s : String) : String := String.mk (titleAux ' ' s.data)

end strings

/-! ## `processor/pipeline`: the plugin cache -/

namespace pipeline

/-- Dynamic type of a constructor value held in an `interface{}`. -/
inductive Sig where
  /-- The type `func() sp.SFProcessor`. -/
  | procFactory
  /-- The type `func(handlers.SFHandler) sp.SFProcessor`. -/
  | procHandlerFactory
  /-- The type `func() handlers.SFHandler`. -/
  | handlerFactory
  /-- The type `func(int) interface{}`. -/
  | chanFactory
  /-- Any other type. -/
  | other
  deriving DecidableEq, Repr

/-- A loaded extension module (`*plugin.Plugin`): its exported symbols with
their dynamic types. -/
structure Plugin where
  path : String
  symbols : GoMap Sig
  deriving DecidableEq, Repr

/-- Go `(*plugin.Plugin).Lookup`. -/
def Plugin.Lookup (plug : Plugin) (symName : String) : Result Sig :=
  match GoMap.get? plug.symbols symName with
  | some s => Result.ok s
  | none => Result.err ("plugin: symbol " ++ symName ++ " not found in plugin " ++ plug.path)

/-- The world outside the process: what `plugin.Open` answers for a path at
its `n`-th call (`none` is a load error). -/
structure World where
  openModule : Nat → String → Option Plugin

/-- A channel instance returned by a channel constructor; `id` is the
ordinal of the constructor call that allocated it. -/
structure Chan where
  id : Nat
  ctor : String
  size : Int
  deriving DecidableEq, Repr

/-- A handler instance (`handlers.SFHandler`). -/
structure SFHandler where
  ctor : String
  deriving DecidableEq, Repr

/-- A processor instance (`sp.SFProcessor`) with the handler it was built
on, if any. -/
structure SFProcessor where
  ctor : String
  handler : Option SFHandler
  deriving DecidableEq, Repr

/-- Dynamic types of the five built-in constructors named in
`NewPluginCache`; their declarations are in packages outside `src/`. -/
structure Builtins where
  NewSysFlowProc : Sig
  NewPolicyEngine : Sig
  NewFlattener : Sig
  NewSysFlowChan : Sig
  NewFlattenerChan : Sig

/-- The struct `PluginCache`.  `chanCalls` and `opens` are ghost counters of
the channel constructor invocations and of the `plugin.Open` calls made so
far. -/
structure PluginCache where
  chanMap : GoMap Chan
  pluginMap : GoMap Plugin
  procFuncMap : GoMap Sig
  hdlFuncMap : GoMap Sig
  chanFuncMap : GoMap Sig
  chanCalls : Nat
  opens : Nat
  deriving DecidableEq, Repr

/-- Go `NewPluginCache`. -/
def NewPluginCache (b : Builtins) : PluginCache :=
  { chanMap := []
    pluginMap := []
    procFuncMap := [("SysFlowProc", b.NewSysFlowProc), ("PolicyEngine", b.NewPolicyEngine)]
    hdlFuncMap := [("Flattener", b.NewFlattener)]
    chanFuncMap := [("SysFlowChan", b.NewSysFlowChan), ("FlattenerChan", b.NewFlattenerChan)]
    chanCalls := 0
    opens := 0 }

/-- Go `PluginCache.GetPlugin`. -/
def PluginCache.GetPlugin (w : World) (p : PluginCache) (mod : String) :
    Result Plugin × PluginCache :=
  match GoMap.get? p.pluginMap mod with
  | some val => (Result.ok val, p)
  | none =>
    match w.openModule p.opens mod with
    | none => (Result.err ("plugin.Open: " ++ mod), { p with opens := p.opens + 1 })
    | some plug =>
      (Result.ok plug, { p with opens := p.opens + 1, pluginMap := GoMap.set p.pluginMap mod plug })

/-- The call `funct(size)` of a channel constructor: a fresh instance. -/
def PluginCache.callChanCtor (p : PluginCache) (ctor : String) (size : Int) :
    Chan × PluginCache :=
  ({ id := p.chanCalls, ctor := ctor, size := size }, { p with chanCalls := p.chanCalls + 1 })

/-- Go `PluginCache.GetChan`. -/
def PluginCache.GetChan (w : World) (p : PluginCache) (mod ch : String) (size : Int) :
    Result Chan × PluginCache :=
  let fields := strings.Fields ch
  match fields with
  | [f0, f1] =>
    match GoMap.get? p.chanMap f0 with
    | some val => (Result.ok val, p)
    | none =>
      match GoMap.get? p.chanFuncMap f1 with
      | some val =>
        if val = Sig.chanFactory then
          let (c, p1) := p.callChanCtor f1 size
          (Result.ok c, { p1 with chanMap := GoMap.set p1.chanMap f0 c })
        else
          (Result.panic "interface conversion: interface \x7b\x7d is not func(int) interface \x7b\x7d", p)
      | none =>
        match p.GetPlugin w mod with
        | (Result.ok plug, p1) =>
          let fName := "New" ++ f1
          match plug.Lookup fName with
          | Result.ok symChan =>
            if symChan = Sig.chanFactory then
              let (c, p2) := p1.callChanCtor fName size
              (Result.ok c, { p2 with chanMap := GoMap.set p2.chanMap f0 c })
            else
              (Result.err ("unexpected type from module symbol for channel function: " ++ fName), p1)
          | Result.err m => (Result.err m, p1)
          | Result.panic m => (Result.panic m, p1)
        | (Result.err m, p1) => (Result.err m, p1)
        | (Result.panic m, p1) => (Result.panic m, p1)
  | _ => (Result.err "Channel must be of the form <identifier> <type>", p)

/-- Go `PluginCache.GetHandler`. -/
def PluginCache.GetHandler (w : World) (p : PluginCache) (mod name : String) :
    Result SFHandler × PluginCache :=
  match GoMap.get? p.hdlFuncMap name with
  | some val =>
    if val = Sig.handlerFactory then (Result.ok { ctor := name }, p)
    else (Result.panic "interface conversion: interface \x7b\x7d is not func() handlers.SFHandler", p)
  | none =>
    let fName := "New" ++ name
    match p.GetPlugin w mod with
    | (Result.ok plug, p1) =>
      match plug.Lookup fName with
      | Result.ok symFlattener =>
        if symFlattener = Sig.handlerFactory then (Result.ok { ctor := fName }, p1)
        else (Result.err ("Unexpected type from module symbol for handler function: " ++ fName), p1)
      | Result.err m => (Result.err m, p1)
      | Result.panic m => (Result.panic m, p1)
    | (Result.err m, p1) => (Result.err m, p1)
    | (Result.panic m, p1) => (Result.panic m, p1)

/-- Go `PluginCache.GetProcessor`. -/
def PluginCache.GetProcessor (w : World) (p : PluginCache) (mod name : String)
    (hdl : SFHandler) (hdlr : Bool) : Result SFProcessor × PluginCache :=
  match GoMap.get? p.procFuncMap name with
  | some val =>
    if hdlr then
      if val = Sig.procHandlerFactory then (Result.ok { ctor := name, handler := some hdl }, p)
      else (Result.panic
        "interface conversion: interface \x7b\x7d is not func(handlers.SFHandler) processors.SFProcessor", p)
    else
      if val = Sig.procFactory then (Result.ok { ctor := name, handler := none }, p)
      else (Result.panic "interface conversion: interface \x7b\x7d is not func() processors.SFProcessor", p)
  | none =>
    let fName := "New" ++ name
    match p.GetPlugin w mod with
    | (Result.ok plug, p1) =>
      match plug.Lookup fName with
      | Result.ok symProcessor =>
        if hdlr then
          if symProcessor = Sig.procHandlerFactory then
            (Result.ok { ctor := fName, handler := some hdl }, p1)
          else (Result.err ("unexpected type from module symbol for processor: " ++ fName), p1)
        else
          if symProcessor = Sig.procFactory then
            (Result.ok { ctor := fName, handler := none }, p1)
          else (Result.err ("unexpected type from module symbol for processor: " ++ fName), p1)
      | Result.err m => (Result.err m, p1)
      | Result.panic m => (Result.panic m, p1)
    | (Result.err m, p1) => (Result.err m, p1)
    | (Result.panic m, p1) => (Result.panic m, p1)

/-- A call made on the cache by a client. -/
inductive Call where
  | getPlugin (mod : String)
  | getHandler (mod name : String)
  | getChan (mod ch : String) (size : Int)
  | getProcessor (mod name : String) (hdl : SFHandler) (hdlr : Bool)

/-- The cache after one client call. -/
def Call.run (w : World) (p : PluginCache) : Call → PluginCache
  | Call.getPlugin mod => (p.GetPlugin w mod).2
  | Call.getHandler mod name => (p.GetHandler w mod name).2
  | Call.getChan mod ch size => (p.GetChan w mod ch size).2
  | Call.getProcessor mod name hdl hdlr => (p.GetProcessor w mod name hdl hdlr).2

/-- The cache after a sequence of client calls, oldest first. -/
def runCalls (w : World) (p : PluginCache) (cs : List Call) : PluginCache :=
  cs.foldl (Call.run w) p

/-- Signatures of the built-in constructors as their call sites in
`GetHandler`, `GetChan` and `GetProcessor` can use them: `NewSysFlowProc`
takes a handler, `NewPolicyEngine` takes nothing. -/
def stdBuiltins : Builtins :=
  { NewSysFlowProc := Sig.procHandlerFactory
    NewPolicyEngine := Sig.procFactory
    NewFlattener := Sig.handlerFactory
    NewSysFlowChan := Sig.chanFactory
    NewFlattenerChan := Sig.chanFactory }

/-- A world with no extension module on disk. -/
def emptyWorld : World := { openModule := fun _ _ => none }

/-- The cache after `flat` was created with declared type `SysFlowChan` and
capacity 10 on a fresh cache. -/
def chanCache : PluginCache :=
  { NewPluginCache stdBuiltins with
    chanMap := [("flat", { id := 0, ctor := "SysFlowChan", size := 10 })]
    chanCalls := 1 }

/-- A world whose module `ext.so` exports the zero-argument processor
constructor `NewExporter`. -/
def extWorld : World :=
  { openModule := fun _ path =>
      if path = "ext.so" then
        some { path := "ext.so", symbols := [("NewExporter", Sig.procFactory)] }
      else none }

/-- The cache after `ext.so` was opened on a fresh cache. -/
def extCache : PluginCache :=
  { NewPluginCache stdBuiltins with
    pluginMap := [("ext.so", { path := "ext.so", symbols := [("NewExporter", Sig.procFactory)] })]
    opens := 1 }

end pipeline

/-! ## `core/exporter`: the batching exporter -/

namespace exporter

/-- The struct `Exporter` over records of type `Rec`: the buffer, the
counter and the threshold `config.EventBuffer`.  `flushed` is a ghost log of
the buffers handed to `process()`, oldest first. -/
structure Exporter (Rec : Type) where
  recs : List Rec
  counter : Int
  EventBuffer : Int
  flushed : List (List Rec)

/-- Go `NewExporter` followed by `Init` with threshold `T`. -/
def NewExporter (Rec : Type) (T : Int) : Exporter Rec :=
  { recs := [], counter := 0, EventBuffer := T, flushed := [] }

/-- Go `Exporter.process`: the current buffer is exported. -/
def Exporter.process {Rec : Type} (s : Exporter Rec) : Exporter Rec :=
  { s with flushed := s.flushed ++ [s.recs] }

/-- One iteration of the receive loop of `Exporter.Process` on a received
record `fc`. -/
def Exporter.receive {Rec : Type} (s : Exporter Rec) (fc : Rec) : Exporter Rec :=
  let s1 := { s with counter := wrapInt64 (s.counter + 1), recs := s.recs ++ [fc] }
  if s1.counter > s1.EventBuffer then
    { s1.process with recs := [], counter := 0 }
  else s1

/-- The state in which the receive loop waits for the next record: the
counter is the length of the buffer and does not exceed the threshold. -/
def Exporter.Inv {Rec : Type} (s : Exporter Rec) : Prop :=
  s.counter = (s.recs.length : Int) ∧ s.counter ≤ s.EventBuffer

/-- Go `Exporter.Process` on a channel that delivers `input` and is then
closed. -/
def Exporter.Process {Rec : Type} (s : Exporter Rec) (input : List Rec) : Exporter Rec :=
  (input.foldl Exporter.receive s).process

/-! ## `core/exporter`: the telemetry record -/

/-- A dynamically typed Go value (`interface{}`) as the field mappers
produce them. -/
inductive Value where
  /-- The nil interface, also the result of reading a missing map key. -/
  | nil
  /-- A Go `string`. -/
  | str (s : String)
  /-- A Go `int64`. -/
  | int64 (i : Int)
  /-- A Go `[]string`. -/
  | strs (l : List String)
  /-- A value of any other dynamic type, given by its `%v` rendering. -/
  | other (rendering : String)
  deriving DecidableEq, Repr

/-- The read `m[k]` of a `map[string]interface{}`: nil when the key is
missing. -/
def GoMap.get (m : GoMap Value) (k : String) : Value :=
  match GoMap.get? m k with
  | some v => v
  | none => Value.nil

/-- Modelled from the spec: the type `engine.HashSet`, declared outside
`src/`, "a fixed small set of named digests"; `MD5` is the digest the source
names. -/
structure HashSet where
  MD5 : String
  SHA1 : String
  SHA256 : String
  deriving DecidableEq, Repr

/-- Modelled from the spec: the type `engine.Rule`, declared outside `src/`,
a "(name, description, priority, tags)" tuple whose tags are scalar or
list-valued. -/
structure Rule where
  Name : String
  Desc : String
  Priority : Int
  Tags : List Value
  deriving DecidableEq, Repr

/-- Modelled from the spec: the type `engine.Record`, declared outside
`src/`, "a loosely-typed bag of telemetry fields addressed by dotted path,
plus an attached context holding a set of content hashes and a list of
matched policy rules". -/
structure Record where
  attrs : GoMap Value
  hashes : HashSet
  rules : List Rule
  deriving DecidableEq, Repr

/-- The declarations of packages `engine` and `sfgo` and the helpers of
package `exporter` that `telemetry.go` uses and `src/` does not contain: the
field enumeration, the field mappers, the path constants, the event type
strings, the list separator, `LastPart` and `GetHashStr`. -/
structure Engine where
  Fields : List String
  Mappers : String → Option (Record → Value)
  MapInt : String → Record → Int
  MapStr : String → Record → String
  LISTSEP : String
  SF_TYPE : String
  SF_OPFLAGS : String
  SF_TS : String
  SF_PROC_TID : String
  SF_PROC_CREATETS : String
  SF_PROC_APID : String
  SF_PROC_ANAME : String
  SF_PROC_AEXE : String
  SF_PROC_ACMDLINE : String
  SF_PPROC_PID : String
  SF_FILE_OID : String
  SF_FILE_OPENFLAGS : String
  SF_NET_SIP : String
  SF_NET_SPORT : String
  SF_NET_DIP : String
  SF_NET_DPORT : String
  SF_NET_PROTO : String
  SF_NET_IP : String
  SF_NET_PORT : String
  SF_CONTAINER_ID : String
  SF_NODE_ID : String
  TyFFStr : String
  TyFEStr : String
  TyNFStr : String
  LastPart : String → String
  GetHashStr : List Value → String

/-- The output formats of `Config.Format`. -/
inductive Format where
  | JSONFormat
  | ECSFormat
  | otherFormat
  deriving DecidableEq, Repr

/-- The sinks of `Config.Export`. -/
inductive Export where
  | StdOutExport
  | FileExport
  | SyslogExport
  | otherExport
  deriving DecidableEq, Repr

/-- The event kinds of `Config.ExpType`. -/
inductive ExportType where
  | TelemetryType
  | AlertType
  deriving DecidableEq, Repr

/-- The fields of `Config` that the transcoder and the exporter read. -/
structure Config where
  Flat : Bool
  Format : Format
  JSONSchemaVersion : String
  Export : Export := Export.StdOutExport
  ExpType : ExportType := ExportType.TelemetryType
  Path : String := ""
  EventBuffer : Int := 0
  deriving DecidableEq, Repr

/-- The constant `proc`. -/
abbrev proc : String := "proc"
/-- The constant `pproc`. -/
abbrev pproc : String := "pproc"
/-- The constant `net`. -/
abbrev net : String := "net"
/-- The constant `file`. -/
abbrev file : String := "file"
/-- The constant `flow`. -/
abbrev flow : String := "flow"
/-- The constant `container`. -/
abbrev container : String := "container"
/-- The constant `node`. -/
abbrev node : String := "node"

/-- The struct `FlatRecord`. -/
structure FlatRecord where
  Data : GoMap Value
  deriving DecidableEq, Repr

/-- The struct `ProcData`. -/
structure ProcData where
  Proc : GoMap Value
  deriving DecidableEq, Repr

/-- The struct `PprocData`. -/
structure PprocData where
  Pproc : GoMap Value
  deriving DecidableEq, Repr

/-- The struct `NetData`. -/
structure NetData where
  Net : GoMap Value
  deriving DecidableEq, Repr

/-- The struct `FileData`. -/
structure FileData where
  File : GoMap Value
  deriving DecidableEq, Repr

/-- The struct `FlowData`. -/
structure FlowData where
  Flow : GoMap Value
  deriving DecidableEq, Repr

/-- The struct `ContData`. -/
structure ContData where
  Container : GoMap Value
  deriving DecidableEq, Repr

/-- The struct `NodeData`. -/
structure NodeData where
  Node : GoMap Value
  deriving DecidableEq, Repr

/-- The struct `DataRecord`; an embedded pointer is an `Option`, `none`
being nil.  The field `Type` is spelled `Type_`. -/
structure DataRecord where
  Type_ : String
  Opflags : List String
  Ret : Int
  Ts : Int
  Endts : Int
  Schema : Int
  ProcData : Option ProcData
  PprocData : Option PprocData
  NetData : Option NetData
  FileData : Option FileData
  FlowData : Option FlowData
  ContData : Option ContData
  NodeData : Option NodeData
  deriving DecidableEq, Repr

/-- The value of `new(DataRecord)`. -/
def DataRecord.new : DataRecord :=
  { Type_ := "", Opflags := [], Ret := 0, Ts := 0, Endts := 0, Schema := 0,
    ProcData := none, PprocData := none, NetData := none, FileData := none,
    FlowData := none, ContData := none, NodeData := none }

/-- The struct `Policy`. -/
structure Policy where
  ID : String
  Desc : String
  Priority : Int
  Tags : List String
  deriving DecidableEq, Repr

/-- The struct `TelemetryRecord`. -/
structure TelemetryRecord where
  Version : String
  FlatRecord : Option FlatRecord
  DataRecord : Option DataRecord
  Hashes : Option HashSet
  Policies : List Policy
  AsECS : Bool
  deriving DecidableEq, Repr

/-- The reflective write
`reflect.ValueOf(r.DataRecord).Elem().FieldByName(name).SetString(v)`: it
succeeds on the one field of kind string and panics on a missing field, on
a field of another kind and on a field promoted through a nil pointer. -/
def DataRecord.SetString (r : DataRecord) (name : String) (v : String) : Result DataRecord :=
  if name = "Type" then Result.ok { r with Type_ := v }
  else Result.panic "reflect: call of reflect.Value.SetString on a Value that is not a string"

/-- The reflective write `FieldByName(name).SetInt(v)`: it succeeds on the
four fields of kind int64 and panics otherwise. -/
def DataRecord.SetInt (r : DataRecord) (name : String) (v : Int) : Result DataRecord :=
  if name = "Ret" then Result.ok { r with Ret := v }
  else if name = "Ts" then Result.ok { r with Ts := v }
  else if name = "Endts" then Result.ok { r with Endts := v }
  else if name = "Schema" then Result.ok { r with Schema := v }
  else Result.panic "reflect: call of reflect.Value.SetInt on a Value that is not an int"

/-- The reflective write `FieldByName(name).Set(reflect.ValueOf(v))` of a
`[]string`: it succeeds on the one field of that type and panics
otherwise. -/
def DataRecord.Set (r : DataRecord) (name : String) (v : List String) : Result DataRecord :=
  if name = "Opflags" then Result.ok { r with Opflags := v }
  else Result.panic "reflect.Set: value of type []string is not assignable"

/-- Go `array`. -/
def array (E : Engine) (k : String) : Bool :=
  k = E.SF_OPFLAGS || k = E.SF_PROC_APID || k = E.SF_PROC_ANAME ||
    k = E.SF_PROC_AEXE || k = E.SF_PROC_ACMDLINE || k = E.SF_FILE_OPENFLAGS ||
    k = E.SF_NET_IP || k = E.SF_NET_PORT

/-- Go `extractValue`. -/
def extractValue (E : Engine) (k : String) (v : Value) : Value :=
  match v with
  | Value.str s => if array E k then Value.strs (strings.Split s E.LISTSEP) else v
  | _ => v

/-- The rendering `fmt.Sprintf("%v", v)`. -/
def sprintV : Value → String
  | Value.nil => "<nil>"
  | Value.str s => s
  | Value.int64 i => toString i
  | Value.strs l => "[" ++ " ".intercalate l ++ "]"
  | Value.other rendering => rendering

/-- Go `extracTags`. -/
def extracTags (tags : List Value) : List String :=
  tags.foldl (fun s v =>
    match v with
    | Value.strs l => s ++ l
    | _ => s ++ [sprintV v]) []

/-- Go `extractPolicySet`. -/
def extractPolicySet (rules : List Rule) : List Policy :=
  rules.foldl (fun pols r =>
    pols ++ [{ ID := r.Name, Desc := r.Desc, Priority := r.Priority, Tags := extracTags r.Tags }]) []

/-- Left fold of a step that can fail: a `for ... range` loop whose body can
panic. -/
def foldlR {α β : Type} (f : β → α → Result β) : β → List α → Result β
  | b, [] => Result.ok b
  | b, a :: l => (f b a).bind (fun b' => foldlR f b' l)

/-- Body of the loop of the flat branch of `extractTelemetryRecord`; calling
a mapper missing from the table is a call of a nil function. -/
def flatStep (E : Engine) (rec : Record) (data : GoMap Value) (k : String) :
    Result (GoMap Value) :=
  match E.Mappers k with
  | none => Result.panic "invalid memory address or nil pointer dereference"
  | some mapper => Result.ok (GoMap.set data k (mapper rec))

/-- Body of the loop of the structured branch of `extractTelemetryRecord`. -/
def structStep (E : Engine) (rec : Record) (pprocExists ctExists : Bool)
    (r : DataRecord) (k : String) : Result DataRecord :=
  let kc := strings.Split k "."
  match E.Mappers k with
  | none => Result.panic "invalid memory address or nil pointer dereference"
  | some mapper =>
    let value := extractValue E k (mapper rec)
    match kc with
    | [_, kc1] =>
      match value with
      | Value.str s => r.SetString (strings.Title kc1) s
      | Value.int64 i => r.SetInt (strings.Title kc1) i
      | Value.strs l => r.Set (strings.Title kc1) l
      | _ => Result.ok r
    | [_, kc1, kc2] =>
      if kc1 = proc then
        let m := match r.ProcData with
          | some d => d.Proc
          | none => []
        Result.ok { r with ProcData := some { Proc := GoMap.set m kc2 value } }
      else if kc1 = pproc then
        if pprocExists then
          let m := match r.PprocData with
            | some d => d.Pproc
            | none => []
          Result.ok { r with PprocData := some { Pproc := GoMap.set m kc2 value } }
        else Result.ok r
      else if kc1 = net then
        if r.Type_ = E.TyNFStr then
          let m := match r.NetData with
            | some d => d.Net
            | none => []
          Result.ok { r with NetData := some { Net := GoMap.set m kc2 value } }
        else Result.ok r
      else if kc1 = file then
        if r.Type_ = E.TyFFStr ∨ r.Type_ = E.TyFEStr then
          let m := match r.FileData with
            | some d => d.File
            | none => []
          Result.ok { r with FileData := some { File := GoMap.set m kc2 value } }
        else Result.ok r
      else if kc1 = flow then
        if r.Type_ = E.TyFFStr ∨ r.Type_ = E.TyNFStr then
          let m := match r.FlowData with
            | some d => d.Flow
            | none => []
          Result.ok { r with FlowData := some { Flow := GoMap.set m kc2 value } }
        else Result.ok r
      else if kc1 = container then
        if ctExists then
          let m := match r.ContData with
            | some d => d.Container
            | none => []
          Result.ok { r with ContData := some { Container := GoMap.set m kc2 value } }
        else Result.ok r
      else if kc1 = node then
        let m := match r.NodeData with
          | some d => d.Node
          | none => []
        Result.ok { r with NodeData := some { Node := GoMap.set m kc2 value } }
      else Result.ok r
    | _ => Result.ok r

/-- Go `extractTelemetryRecord`. -/
def extractTelemetryRecord (E : Engine) (rec : Record) (config : Config) :
    Result TelemetryRecord :=
  let r : TelemetryRecord :=
    { Version := config.JSONSchemaVersion, FlatRecord := none, DataRecord := none,
      Hashes := none, Policies := [], AsECS := decide (config.Format = Format.ECSFormat) }
  let body : Result TelemetryRecord :=
    if config.Flat then
      (foldlR (flatStep E rec) [] E.Fields).bind
        (fun data => Result.ok { r with FlatRecord := some { Data := data } })
    else
      let pprocID := E.MapInt E.SF_PPROC_PID rec
      let pprocExists := decide (pprocID ≠ 0)
      let ct := E.MapStr E.SF_CONTAINER_ID rec
      let ctExists := decide (ct ≠ "")
      (foldlR (structStep E rec pprocExists ctExists) DataRecord.new E.Fields).bind
        (fun d => Result.ok { r with DataRecord := some d })
  body.bind (fun r =>
    let hashset := rec.hashes
    let r := if hashset.MD5 ≠ "" then { r with Hashes := some hashset } else r
    Result.ok { r with Policies := extractPolicySet rec.rules })

/-- The coordinate tuple `h` that `TelemetryRecord.ID` hands to
`GetHashStr`.  Dereferencing a nil sub-structure and asserting a non-string
to `string` panic. -/
def TelemetryRecord.IDTuple (E : Engine) (s : TelemetryRecord) : Result (List Value) :=
  match s.FlatRecord with
  | some fr =>
    let data := fr.Data
    match GoMap.get data E.SF_TYPE with
    | Value.str t =>
      let h := [GoMap.get data E.SF_NODE_ID, GoMap.get data E.SF_CONTAINER_ID,
        GoMap.get data E.SF_TS, GoMap.get data E.SF_PROC_TID,
        GoMap.get data E.SF_PROC_CREATETS, Value.str t]
      if t = E.TyFFStr ∨ t = E.TyFEStr then
        Result.ok (h ++ [GoMap.get data E.SF_FILE_OID])
      else if t = E.TyNFStr then
        Result.ok (h ++ [GoMap.get data E.SF_NET_SIP, GoMap.get data E.SF_NET_SPORT,
          GoMap.get data E.SF_NET_DIP, GoMap.get data E.SF_NET_DPORT,
          GoMap.get data E.SF_NET_PROTO])
      else Result.ok h
    | _ => Result.panic "interface conversion: interface \x7b\x7d is not string"
  | none =>
    match s.DataRecord with
    | none => Result.panic "invalid memory address or nil pointer dereference"
    | some data =>
      match data.NodeData with
      | none => Result.panic "invalid memory address or nil pointer dereference"
      | some nd =>
        let h := [GoMap.get nd.Node (E.LastPart E.SF_NODE_ID)]
        let h := match data.ContData with
          | some cd =>
            match GoMap.get? cd.Container (E.LastPart E.SF_CONTAINER_ID) with
            | some v => h ++ [v]
            | none => h
          | none => h
        match data.ProcData with
        | none => Result.panic "invalid memory address or nil pointer dereference"
        | some pd =>
          let h := h ++ [Value.int64 data.Ts, GoMap.get pd.Proc (E.LastPart E.SF_PROC_TID),
            GoMap.get pd.Proc (E.LastPart E.SF_PROC_CREATETS), Value.str data.Type_]
          if data.Type_ = E.TyFFStr ∨ data.Type_ = E.TyFEStr then
            match data.FileData with
            | none => Result.panic "invalid memory address or nil pointer dereference"
            | some fd => Result.ok (h ++ [GoMap.get fd.File (E.LastPart E.SF_FILE_OID)])
          else if data.Type_ = E.TyNFStr then
            match data.NetData with
            | none => Result.panic "invalid memory address or nil pointer dereference"
            | some nt =>
              let net := nt.Net
              Result.ok (h ++ [GoMap.get net (E.LastPart E.SF_NET_SIP),
                GoMap.get net (E.LastPart E.SF_NET_SPORT),
                GoMap.get net (E.LastPart E.SF_NET_DIP),
                GoMap.get net (E.LastPart E.SF_NET_DPORT),
                GoMap.get net (E.LastPart E.SF_NET_PROTO)])
          else Result.ok h

/-- Go `TelemetryRecord.ID`. -/
def TelemetryRecord.ID (E : Engine) (s : TelemetryRecord) : Result String :=
  (s.IDTuple E).bind (fun h => Result.ok (E.GetHashStr h))

/-! ### Views of the transcoder used to state its properties -/

/-- The value the mapper of path `k` gives for `rec`; nil when the table has
no mapper for `k`. -/
def Engine.value (E : Engine) (k : String) (rec : Record) : Value :=
  match E.Mappers k with
  | some mapper => mapper rec
  | none => Value.nil

/-- The seven sub-structures of a `DataRecord`. -/
inductive Domain where
  | proc
  | pproc
  | net
  | file
  | flow
  | container
  | node
  deriving DecidableEq, Repr

/-- The path segment that selects a sub-structure. -/
def Domain.name : Domain → String
  | Domain.proc => exporter.proc
  | Domain.pproc => exporter.pproc
  | Domain.net => exporter.net
  | Domain.file => exporter.file
  | Domain.flow => exporter.flow
  | Domain.container => exporter.container
  | Domain.node => exporter.node

/-- The map of a sub-structure, `none` when the sub-structure is nil. -/
def DataRecord.sub (r : DataRecord) : Domain → Option (GoMap Value)
  | Domain.proc => r.ProcData.map (fun d => d.Proc)
  | Domain.pproc => r.PprocData.map (fun d => d.Pproc)
  | Domain.net => r.NetData.map (fun d => d.Net)
  | Domain.file => r.FileData.map (fun d => d.File)
  | Domain.flow => r.FlowData.map (fun d => d.Flow)
  | Domain.container => r.ContData.map (fun d => d.Container)
  | Domain.node => r.NodeData.map (fun d => d.Node)

/-- The condition under which the structured loop writes into a
sub-structure. -/
def writesTo (E : Engine) (pprocExists ctExists : Bool) (r : DataRecord) : Domain → Bool
  | Domain.proc => true
  | Domain.pproc => pprocExists
  | Domain.net => decide (r.Type_ = E.TyNFStr)
  | Domain.file => decide (r.Type_ = E.TyFFStr ∨ r.Type_ = E.TyFEStr)
  | Domain.flow => decide (r.Type_ = E.TyFFStr ∨ r.Type_ = E.TyNFStr)
  | Domain.container => ctExists
  | Domain.node => true

/-- The last two segments of a three-segment path. -/
def subKey (k : String) : Option (String × String) :=
  match strings.Split k "." with
  | [_, kc1, kc2] => some (kc1, kc2)
  | _ => none

/-- The attribute name `strings.Title(kc[1])` of a two-segment path. -/
def attrKey (k : String) : Option String :=
  match strings.Split k "." with
  | [_, kc1] => some (strings.Title kc1)
  | _ => none

/-- Path `k` is listed, is the one listed path of its attribute of
sub-structure `D`, `LastPart` gives its third segment, and it is not
list-like. -/
def SubPath (E : Engine) (k : String) (D : Domain) : Prop :=
  k ∈ E.Fields ∧ subKey k = some (D.name, E.LastPart k) ∧
    (∀ k' ∈ E.Fields, subKey k' = some (D.name, E.LastPart k) → k' = k) ∧
    array E k = false

/-- Path `k` is listed and is the one listed path of the top-level attribute
`name`. -/
def AttrPath (E : Engine) (k : String) (name : String) : Prop :=
  k ∈ E.Fields ∧ attrKey k = some name ∧ ∀ k' ∈ E.Fields, attrKey k' = some name → k' = k

/-- No path listed before the event type path is a file or network path. -/
def TypeFirst (E : Engine) : Prop :=
  ∀ k ∈ E.Fields.takeWhile (fun k => decide (k ≠ E.SF_TYPE)),
    (subKey k).map Prod.fst ≠ some file ∧ (subKey k).map Prod.fst ≠ some net

/-- The conditions on the field enumeration under which the coordinates
that `TelemetryRecord.ID` reads are in place. -/
structure IDSchema (E : Engine) : Prop where
  typePath : AttrPath E E.SF_TYPE "Type"
  tsPath : AttrPath E E.SF_TS "Ts"
  typeFirst : TypeFirst E
  nodeID : SubPath E E.SF_NODE_ID Domain.node
  containerID : SubPath E E.SF_CONTAINER_ID Domain.container
  procTID : SubPath E E.SF_PROC_TID Domain.proc
  procCreateTS : SubPath E E.SF_PROC_CREATETS Domain.proc
  fileOID : SubPath E E.SF_FILE_OID Domain.file
  netSIP : SubPath E E.SF_NET_SIP Domain.net
  netSPort : SubPath E E.SF_NET_SPORT Domain.net
  netDIP : SubPath E E.SF_NET_DIP Domain.net
  netDPort : SubPath E E.SF_NET_DPORT Domain.net
  netProto : SubPath E E.SF_NET_PROTO Domain.net

/-- The reflective write of the structured loop for path `k` succeeds: the
path has a mapper and, when it has two segments, its value is a string for
the attribute `Type`, an `int64` for one of the four `int64` attributes, a
`[]string` for `Opflags`, or a value of another kind (which is not
written). -/
def fits (E : Engine) (rec : Record) (k : String) : Prop :=
  (E.Mappers k).isSome = true ∧
    ∀ n, attrKey k = some n →
      match extractValue E k (E.value k rec) with
      | Value.str _ => n = "Type"
      | Value.int64 _ => n = "Ret" ∨ n = "Ts" ∨ n = "Endts" ∨ n = "Schema"
      | Value.strs _ => n = "Opflags"
      | _ => True

/-- The coordinates that `TelemetryRecord.ID` appends for an event of type
`t`: the file object id for the two file types, the five network
coordinates for the network-flow type. -/
def typeCoordinates (E : Engine) (rec : Record) (t : String) : List Value :=
  if t = E.TyFFStr ∨ t = E.TyFEStr then [E.value E.SF_FILE_OID rec]
  else if t = E.TyNFStr then
    [E.value E.SF_NET_SIP rec, E.value E.SF_NET_SPORT rec, E.value E.SF_NET_DIP rec,
      E.value E.SF_NET_DPORT rec, E.value E.SF_NET_PROTO rec]
  else []

/-! ### A concrete engine

The field paths and event type strings of the SysFlow schema, with the
enumeration ordered as the engine orders it: by number of segments, then
alphabetically. -/

/-- The last dot-separated segment of a path. -/
def lastSegment (s : String) : String :=
  match (strings.Split s ".").getLast? with
  | some x => x
  | none => ""

/-- The field enumeration of `sysflow`. -/
def sysflowFields : List String :=
  ["sf.endts", "sf.opflags", "sf.ret", "sf.ts", "sf.type",
   "sf.container.id", "sf.container.name",
   "sf.file.oid", "sf.file.openflags", "sf.file.path",
   "sf.flow.rbytes",
   "sf.net.dip", "sf.net.dport", "sf.net.ip", "sf.net.port", "sf.net.proto",
   "sf.net.sip", "sf.net.sport",
   "sf.node.id", "sf.node.ip",
   "sf.pproc.exe", "sf.pproc.pid",
   "sf.proc.aname", "sf.proc.createts", "sf.proc.exe", "sf.proc.pid", "sf.proc.tid"]

/-- A rendering of a coordinate tuple standing for `GetHashStr`. -/
def renderTuple (h : List Value) : String := "|".intercalate (h.map sprintV)

/-- An engine over `sysflowFields` whose mappers read the bag of the
record. -/
def sysflow : Engine :=
  { Fields := sysflowFields
    Mappers := fun k => if k ∈ sysflowFields then some (fun r => GoMap.get r.attrs k) else none
    MapInt := fun k r =>
      match GoMap.get r.attrs k with
      | Value.int64 i => i
      | _ => 0
    MapStr := fun k r =>
      match GoMap.get r.attrs k with
      | Value.str s => s
      | _ => ""
    LISTSEP := ","
    SF_TYPE := "sf.type"
    SF_OPFLAGS := "sf.opflags"
    SF_TS := "sf.ts"
    SF_PROC_TID := "sf.proc.tid"
    SF_PROC_CREATETS := "sf.proc.createts"
    SF_PROC_APID := "sf.proc.apid"
    SF_PROC_ANAME := "sf.proc.aname"
    SF_PROC_AEXE := "sf.proc.aexe"
    SF_PROC_ACMDLINE := "sf.proc.acmdline"
    SF_PPROC_PID := "sf.pproc.pid"
    SF_FILE_OID := "sf.file.oid"
    SF_FILE_OPENFLAGS := "sf.file.openflags"
    SF_NET_SIP := "sf.net.sip"
    SF_NET_SPORT := "sf.net.sport"
    SF_NET_DIP := "sf.net.dip"
    SF_NET_DPORT := "sf.net.dport"
    SF_NET_PROTO := "sf.net.proto"
    SF_NET_IP := "sf.net.ip"
    SF_NET_PORT := "sf.net.port"
    SF_CONTAINER_ID := "sf.container.id"
    SF_NODE_ID := "sf.node.id"
    TyFFStr := "FF"
    TyFEStr := "FE"
    TyNFStr := "NF"
    LastPart := lastSegment
    GetHashStr := renderTuple }

/-- The flat configuration. -/
def flatConfig : Config := { Flat := true, Format := Format.JSONFormat, JSONSchemaVersion := "0.1" }

/-- The structured configuration. -/
def structConfig : Config := { Flat := false, Format := Format.JSONFormat, JSONSchemaVersion := "0.1" }

/-- A network-flow record of a process that runs outside any container and
has a parent. -/
def hostNetRecord : Record :=
  { attrs := [("sf.type", Value.str "NF"), ("sf.opflags", Value.str "CONNECT,RECV"),
      ("sf.ret", Value.int64 0), ("sf.ts", Value.int64 1600000000), ("sf.endts", Value.int64 1600000009),
      ("sf.container.id", Value.str ""), ("sf.container.name", Value.str ""),
      ("sf.node.id", Value.str "node-1"), ("sf.node.ip", Value.str "192.168.0.2"),
      ("sf.proc.pid", Value.int64 4242), ("sf.proc.tid", Value.int64 4243),
      ("sf.proc.createts", Value.int64 1599999999), ("sf.proc.exe", Value.str "/usr/bin/curl"),
      ("sf.proc.aname", Value.str "bash,sshd"),
      ("sf.pproc.pid", Value.int64 4000), ("sf.pproc.exe", Value.str "/bin/bash"),
      ("sf.net.sip", Value.str "10.0.0.1"), ("sf.net.sport", Value.int64 51234),
      ("sf.net.dip", Value.str "10.0.0.9"), ("sf.net.dport", Value.int64 443),
      ("sf.net.proto", Value.int64 6), ("sf.net.ip", Value.str "10.0.0.1,10.0.0.9"),
      ("sf.net.port", Value.str "51234,443"),
      ("sf.file.oid", Value.str ""), ("sf.file.openflags", Value.str ""),
      ("sf.file.path", Value.str ""), ("sf.flow.rbytes", Value.int64 512)]
    hashes := { MD5 := "", SHA1 := "", SHA256 := "" }
    rules := [] }

/-- The record `hostNetRecord` of a process that runs in a container. -/
def containerNetRecord : Record :=
  { hostNetRecord with
    attrs := ("sf.container.id", Value.str "c0ffee") :: ("sf.container.name", Value.str "web")
      :: hostNetRecord.attrs }

/-- The record `hostNetRecord` as a file-flow event of a process without a
parent; its network fields are still filled. -/
def orphanFileRecord : Record :=
  { hostNetRecord with
    attrs := ("sf.type", Value.str "FF") :: ("sf.pproc.pid", Value.int64 0)
      :: ("sf.file.oid", Value.str "f00d") :: hostNetRecord.attrs }

/-- A `TelemetryRecord` with nothing in it. -/
def TelemetryRecord.empty : TelemetryRecord :=
  { Version := "", FlatRecord := none, DataRecord := none, Hashes := none, Policies := [],
    AsECS := false }

/-- The output of `extractTelemetryRecord` on the concrete engine. -/
def sysflowOutput (rec : Record) (config : Config) : TelemetryRecord :=
  (extractTelemetryRecord sysflow rec config).getD TelemetryRecord.empty

/-! ### Serialization and sinks -/

/-- An `Event` as `createEvents` returns it: a telemetry record, or an
event of the alert encoder given by its JSON string. -/
inductive Event where
  | telemetry (r : TelemetryRecord)
  | offense (json : String)
  deriving DecidableEq, Repr

/-- The serializers that `exporter.go` and `telemetry.go` call and `src/`
does not contain: `json.Marshal` on a `TelemetryRecord`, `json.Marshal` on
the `ToECS` projection, and `CreateOffenses`. -/
structure Codec where
  Marshal : TelemetryRecord → String
  MarshalECS : TelemetryRecord → String
  CreateOffenses : List Record → Config → List Event

/-- Go `TelemetryRecord.ToJSONStr` (through `ToJSON`). -/
def TelemetryRecord.ToJSONStr (C : Codec) (s : TelemetryRecord) : String :=
  if s.AsECS then C.MarshalECS s else C.Marshal s

/-- The method `ToJSONStr` of an `Event`. -/
def Event.ToJSONStr (C : Codec) : Event → String
  | Event.telemetry r => r.ToJSONStr C
  | Event.offense json => json

/-- Go `CreateTelemetryRecords`. -/
def CreateTelemetryRecords (E : Engine) (occs : List Record) (config : Config) :
    Result (List Event) :=
  foldlR (fun recs o =>
    (extractTelemetryRecord E o config).bind
      (fun r => Result.ok (recs ++ [Event.telemetry r]))) [] occs

/-- What the exporter has written: the lines printed through
`logger.Trace`, the lines printed through `logger.Error`, the messages the
syslog connection accepted, the strings appended to the file at
`config.Path`, and the numbers of `os.OpenFile`, `WriteString` and `Alert`
calls made. -/
structure Sinks where
  trace : List String
  errors : List String
  syslog : List String
  file : List String
  opens : Nat
  writes : Nat
  alerts : Nat
  deriving DecidableEq, Repr

/-- Nothing written yet. -/
def Sinks.empty : Sinks :=
  { trace := [], errors := [], syslog := [], file := [], opens := 0, writes := 0, alerts := 0 }

/-- The world outside the process: whether the `n`-th `os.OpenFile` call,
the `n`-th `WriteString` call (when its file is open) and the `n`-th `Alert`
call succeed.  A failed write leaves the file as it was. -/
structure SinkWorld where
  openOK : Nat → Bool
  writeOK : Nat → Bool
  alertOK : Nat → Bool

/-- The struct `Exporter` over engine records, with its configuration,
whether `sysl` is a live connection, and the sinks it writes to. -/
structure SinkExporter where
  recs : List Record
  counter : Int
  sysl : Bool
  config : Config
  out : Sinks
  deriving DecidableEq, Repr

/-- Go `Exporter.createEvents`. -/
def SinkExporter.createEvents (E : Engine) (C : Codec) (s : SinkExporter) :
    Result (List Event) :=
  if s.config.ExpType = ExportType.AlertType then
    Result.ok (C.CreateOffenses s.recs s.config)
  else CreateTelemetryRecords E s.recs s.config

/-- Body of the loop of `Exporter.exportAsJSON` for one event.  With the
file sink, a failed `os.OpenFile` leaves `f` nil, and `WriteString` on a nil
file returns an error; `Alert` on a nil `sysl` panics. -/
def SinkExporter.exportOne (W : SinkWorld) (C : Codec) (s : SinkExporter) (e : Event) :
    Result SinkExporter :=
  if s.config.Export = Export.StdOutExport then
    Result.ok { s with out := { s.out with
      trace := s.out.trace ++ ["\x1b[1;34m" ++ e.ToJSONStr C ++ "\x1b[0m\n"] } }
  else if s.config.Export = Export.SyslogExport then
    if s.sysl then
      let o := { s.out with alerts := s.out.alerts + 1 }
      if W.alertOK s.out.alerts then
        Result.ok { s with out := { o with syslog := o.syslog ++ [e.ToJSONStr C] } }
      else Result.ok { s with out := o }
    else Result.panic "invalid memory address or nil pointer dereference"
  else if s.config.Export = Export.FileExport then
    let opened := W.openOK s.out.opens
    let o1 := { s.out with opens := s.out.opens + 1 }
    let o2 := if opened then o1 else { o1 with errors := o1.errors ++ ["Can't open trace file:\n"] }
    let o3 := { o2 with writes := o2.writes + 1 }
    if opened && W.writeOK o2.writes then
      Result.ok { s with out := { o3 with file := o3.file ++ [e.ToJSONStr C ++ "\n"] } }
    else
      Result.ok { s with out := { o3 with errors := o3.errors ++ ["Can't write to trace file:\n"] } }
  else Result.ok s

/-- Go `Exporter.exportAsJSON`. -/
def SinkExporter.exportAsJSON (W : SinkWorld) (C : Codec) (s : SinkExporter)
    (events : List Event) : Result SinkExporter :=
  foldlR (SinkExporter.exportOne W C) s events

/-- Go `Exporter.export`. -/
def SinkExporter.export (W : SinkWorld) (C : Codec) (s : SinkExporter)
    (events : List Event) : Result SinkExporter :=
  if s.config.Format = Format.JSONFormat then s.exportAsJSON W C events
  else Result.ok s

/-- Go `Exporter.process`. -/
def SinkExporter.process (E : Engine) (W : SinkWorld) (C : Codec) (s : SinkExporter) :
    Result SinkExporter :=
  (s.createEvents E C).bind (fun events => s.export W C events)

/-- The strings that a batch leaves in the file when the `i`-th event of the
batch is written only if its open, the `(opens + i)`-th, and its write, the
`(writes + i)`-th, both succeed. -/
def appended (W : SinkWorld) (C : Codec) : Nat → Nat → List Event → List String
  | _, _, [] => []
  | opens, writes, e :: es =>
    (if W.openOK opens && W.writeOK writes then [e.ToJSONStr C ++ "\n"] else [])
      ++ appended W C (opens + 1) (writes + 1) es

/-- The strings one tag contributes to the tag list of a policy: its
elements when it is a list, its rendering when it is a scalar. -/
def tagStrings : Value → List String
  | Value.strs l => l
  | v => [sprintV v]

/-- The eight list-like paths. -/
def listPaths (E : Engine) : List String :=
  [E.SF_OPFLAGS, E.SF_PROC_APID, E.SF_PROC_ANAME, E.SF_PROC_AEXE, E.SF_PROC_ACMDLINE,
    E.SF_FILE_OPENFLAGS, E.SF_NET_IP, E.SF_NET_PORT]

/-- A serializer that shows the shape and the type of a record. -/
def demoCodec : Codec :=
  { Marshal := fun r =>
      match r.FlatRecord, r.DataRecord with
      | some fr, _ => "flat:" ++ sprintV (GoMap.get fr.Data "sf.type")
      | none, some d => "data:" ++ d.Type_
      | none, none => "empty"
    MarshalECS := fun r =>
      match r.DataRecord with
      | some d => "ecs:" ++ d.Type_
      | none => "ecs"
    CreateOffenses := fun _ _ => [] }

/-- A world in which every sink operation succeeds. -/
def goodWorld : SinkWorld :=
  { openOK := fun _ => true, writeOK := fun _ => true, alertOK := fun _ => true }

/-- A world in which the second open and the fourth write fail (counting
from one). -/
def flakyWorld : SinkWorld :=
  { openOK := fun n => decide (n ≠ 1), writeOK := fun n => decide (n ≠ 3),
    alertOK := fun _ => true }

/-- An exporter about to flush `recs` under `config`. -/
def flushing (config : Config) (recs : List Record) : SinkExporter :=
  { recs := recs, counter := recs.length, sysl := true, config := config, out := Sinks.empty }

/-- The ECS configuration on standard output. -/
def ecsConfig : Config :=
  { Flat := false, Format := Format.ECSFormat, JSONSchemaVersion := "0.1" }

/-- The structured configuration on the file sink. -/
def fileConfig : Config :=
  { Flat := false, Format := Format.JSONFormat, JSONSchemaVersion := "0.1",
    Export := Export.FileExport, Path := "/tmp/trace.json" }

/-- A record whose context carries a SHA-256 digest and no MD5 digest. -/
def sha256Record : Record :=
  { hostNetRecord with hashes := { MD5 := "", SHA1 := "", SHA256 := "9f86d081884c7d65" } }

/-- A record whose context carries an MD5 digest. -/
def md5Record : Record :=
  { hostNetRecord with hashes := { MD5 := "d41d8cd98f00b204", SHA1 := "", SHA256 := "" } }

/-- The engine `sysflow` over another field enumeration. -/
def engineOver (fields : List String) : Engine :=
  { sysflow with
    Fields := fields
    Mappers := fun k => if k ∈ fields then some (fun r => GoMap.get r.attrs k) else none }

/-- A record with a Kubernetes pod name, a thread id at top level, a
boolean return value and a textual timestamp. -/
def oddRecord : Record :=
  { attrs := [("sf.type", Value.str "PE"), ("sf.k8s.pod", Value.str "web-1"),
      ("sf.tid", Value.int64 4243), ("sf.ret", Value.other "true"),
      ("sf.ts", Value.str "yesterday")]
    hashes := { MD5 := "", SHA1 := "", SHA256 := "" }
    rules := [] }

/-- Two matched rules, the first with a scalar, a list-valued and a numeric
tag. -/
def demoRules : List Rule :=
  [{ Name := "Shell in container", Desc := "a shell was spawned", Priority := 2,
     Tags := [Value.str "mitre:T1059", Value.strs ["container", "shell"], Value.int64 7] },
   { Name := "Outbound", Desc := "outbound connection", Priority := 0, Tags := [] }]

end exporter


/-! # Theorems -/

/-! ## The batching exporter -/

namespace exporter

theorem wrapInt64_of_range (i : Int) (h0 : 0 ≤ i) (h1 : i < 9223372036854775808) :
    wrapInt64 i = i := by
  unfold wrapInt64
  omega

/-- One received record extends the records seen so far (flushed batches,
then the buffer) by that record. -/
theorem receive_log {Rec : Type} (s : Exporter Rec) (fc : Rec) :
    (s.receive fc).flushed.flatten ++ (s.receive fc).recs = s.flushed.flatten ++ s.recs ++ [fc] := by
  unfold Exporter.receive Exporter.process
  by_cases h : wrapInt64 (s.counter + 1) > s.EventBuffer <;> simp [h]

theorem foldl_receive_log {Rec : Type} (input : List Rec) (s : Exporter Rec) :
    (input.foldl Exporter.receive s).flushed.flatten ++ (input.foldl Exporter.receive s).recs
      = s.flushed.flatten ++ s.recs ++ input := by
  induction input generalizing s with
  | nil => simp
  | cons fc rest ih =>
    rw [List.foldl_cons, ih, receive_log]
    simp

/-- C2: for every threshold and every finite input sequence followed by
closure of the channel, the batches handed to `process()`, concatenated in
flush order, are exactly the received sequence: nothing is lost, duplicated
or reordered. -/
theorem Process_flushed_join {Rec : Type} (T : Int) (input : List Rec) :
    ((NewExporter Rec T).Process input).flushed.flatten = input := by
  have h := foldl_receive_log input (NewExporter Rec T)
  unfold Exporter.Process Exporter.process
  simp only [List.flatten_append, List.flatten_cons, List.flatten_nil, List.append_nil]
  rw [h]
  simp [NewExporter]

/-- The state of the receive loop after `input`, started in a state whose
counter is the buffer length `c ≤ t`. -/
theorem foldl_receive_counts {Rec : Type} (t : Nat) (input : List Rec) :
    ∀ s : Exporter Rec, s.EventBuffer = (t : Int) → s.counter = (s.recs.length : Int) →
      s.recs.length ≤ t → s.recs.length + input.length < 9223372036854775808 →
      (∀ b ∈ s.flushed, b.length = t + 1) →
      let s' := input.foldl Exporter.receive s
      s'.EventBuffer = (t : Int) ∧ s'.counter = (s'.recs.length : Int) ∧
        s'.recs.length = (s.recs.length + input.length) % (t + 1) ∧
        s'.flushed.length = s.flushed.length + (s.recs.length + input.length) / (t + 1) ∧
        (∀ b ∈ s'.flushed, b.length = t + 1) := by
  induction input with
  | nil =>
    intro s hT hc hle _ hb
    refine ⟨hT, hc, ?_, ?_, hb⟩
    · simp only [List.length_nil, Nat.add_zero, List.foldl_nil]
      exact (Nat.mod_eq_of_lt (by omega)).symm
    · simp only [List.length_nil, Nat.add_zero, List.foldl_nil]
      rw [Nat.div_eq_of_lt (by omega)]
      rfl
  | cons fc rest ih =>
    intro s hT hc hle hn hb
    simp only [List.length_cons] at hn
    have hw : wrapInt64 (s.counter + 1) = s.counter + 1 :=
      wrapInt64_of_range _ (by omega) (by omega)
    simp only [List.foldl_cons, List.length_cons]
    by_cases hgt : s.counter + 1 > s.EventBuffer
    · -- the buffer overflows: flush and reset
      have hlen : s.recs.length = t := by omega
      have hs1 : s.receive fc =
          { recs := [], counter := 0, EventBuffer := s.EventBuffer,
            flushed := s.flushed ++ [s.recs ++ [fc]] } := by
        unfold Exporter.receive Exporter.process
        simp [hw, hgt]
      rw [hs1]
      have := ih ⟨[], 0, s.EventBuffer, s.flushed ++ [s.recs ++ [fc]]⟩ hT rfl (Nat.zero_le _)
            (by simp only [List.length_nil]; omega)
            (by
              intro b hbm
              rcases List.mem_append.mp hbm with h | h
              · exact hb b h
              · rw [List.mem_singleton.mp h]; simp [hlen])
      obtain ⟨h1, h2, h3, h4, h5⟩ := this
      refine ⟨h1, h2, ?_, ?_, h5⟩
      · rw [h3, hlen]
        simp only [List.length_nil, Nat.zero_add]
        rw [show t + (rest.length + 1) = (t + 1) + rest.length by omega, Nat.add_mod_left]
      · rw [h4, hlen]
        simp only [List.length_nil, Nat.zero_add, List.length_append, List.length_singleton]
        rw [show t + (rest.length + 1) = (t + 1) + rest.length by omega,
          Nat.add_div_left _ (Nat.succ_pos t)]
        simp only [Nat.succ_eq_add_one]
        omega
    · -- the record is only buffered
      have hs1 : s.receive fc =
          { recs := s.recs ++ [fc], counter := s.counter + 1, EventBuffer := s.EventBuffer,
            flushed := s.flushed } := by
        unfold Exporter.receive Exporter.process
        simp [hw, hgt]
      rw [hs1]
      have := ih ⟨s.recs ++ [fc], s.counter + 1, s.EventBuffer, s.flushed⟩ hT
            (by simp [hc])
            (by simp only [List.length_append, List.length_singleton]; omega)
            (by simp only [List.length_append, List.length_singleton]; omega) hb
      obtain ⟨h1, h2, h3, h4, h5⟩ := this
      simp only [List.length_append, List.length_singleton] at h3 h4
      refine ⟨h1, h2, ?_, ?_, h5⟩
      · rw [h3, show s.recs.length + 1 + rest.length = s.recs.length + (rest.length + 1) by omega]
      · rw [h4, show s.recs.length + 1 + rest.length = s.recs.length + (rest.length + 1) by omega]

/-- C3: with a threshold `T ≥ 0`, a received record triggers a flush exactly
when the incremented counter exceeds `T`, and on `n` records followed by
closure `process()` is called `n / (T+1) + 1` times: every threshold
triggered batch holds `T+1` records and the last call, on closure, gets the
remaining `n % (T+1)` records, possibly none. -/
theorem Process_flush_count {Rec : Type} (T : Int) (input : List Rec) (hT : 0 ≤ T)
    (hn : input.length < 9223372036854775808) :
    (∀ (s : Exporter Rec) (fc : Rec),
      (s.receive fc).flushed =
        if wrapInt64 (s.counter + 1) > s.EventBuffer then s.flushed ++ [s.recs ++ [fc]]
        else s.flushed) ∧
    ((NewExporter Rec T).Process input).flushed.length = input.length / (T.toNat + 1) + 1 ∧
    (∀ b ∈ ((NewExporter Rec T).Process input).flushed.dropLast, b.length = T.toNat + 1) ∧
    (∃ last, ((NewExporter Rec T).Process input).flushed.getLast? = some last ∧
      last.length = input.length % (T.toNat + 1)) := by
  obtain ⟨t, rfl⟩ := Int.eq_ofNat_of_zero_le hT
  have h := foldl_receive_counts t input (NewExporter Rec (t : Int)) rfl rfl (Nat.zero_le _)
    (by simpa [NewExporter] using hn) (by simp [NewExporter])
  simp only [NewExporter, List.length_nil, Nat.zero_add] at h
  obtain ⟨_, _, h3, h4, h5⟩ := h
  refine ⟨?_, ?_, ?_, ?_⟩
  · intro s fc
    unfold Exporter.receive Exporter.process
    by_cases hgt : wrapInt64 (s.counter + 1) > s.EventBuffer <;> simp [hgt]
  · simp only [Exporter.Process, Exporter.process, NewExporter, List.length_append,
      List.length_singleton, Int.toNat_ofNat]
    rw [h4]
  · intro b hb
    simp only [Exporter.Process, Exporter.process, NewExporter, List.dropLast_concat] at hb
    simpa using h5 b hb
  · refine ⟨(input.foldl Exporter.receive (NewExporter Rec (t : Int))).recs, ?_, ?_⟩
    · simp [Exporter.Process, Exporter.process]
    · simpa [NewExporter] using h3

/-- C3 at threshold 2 with three records: records 1 and 2 only buffer,
record 3 triggers one flush of all three, and closure flushes an empty
buffer. -/
theorem Process_flush_count_witness :
    ((NewExporter Nat 2).receive 1).flushed = [] ∧
    (((NewExporter Nat 2).receive 1).receive 2).flushed = [] ∧
    ((NewExporter Nat 2).Process [1, 2, 3]).flushed = [[1, 2, 3], []] ∧
    ((NewExporter Nat 2).Process [1, 2, 3]).flushed.length = 3 / ((2 : Int).toNat + 1) + 1 :=
  ⟨by decide, by decide, by decide,
    (Process_flush_count (2 : Int) [1, 2, 3] (by decide) (by decide)).2.1⟩

end exporter

/-! ## The plugin cache -/

namespace pipeline

/-- `GetPlugin` leaves the channel table and the channel constructor count
alone. -/
theorem GetPlugin_chan (w : World) (p : PluginCache) (mod : String) :
    (p.GetPlugin w mod).2.chanMap = p.chanMap ∧
      (p.GetPlugin w mod).2.chanCalls = p.chanCalls ∧
      (p.GetPlugin w mod).2.chanFuncMap = p.chanFuncMap := by
  unfold PluginCache.GetPlugin
  cases GoMap.get? p.pluginMap mod with
  | some val => exact ⟨rfl, rfl, rfl⟩
  | none =>
    cases w.openModule p.opens mod with
    | none => exact ⟨rfl, rfl, rfl⟩
    | some plug => exact ⟨rfl, rfl, rfl⟩

/-- `GetHandler` leaves the channel table alone. -/
theorem GetHandler_chanMap (w : World) (p : PluginCache) (mod name : String) :
    (p.GetHandler w mod name).2.chanMap = p.chanMap := by
  have hp := (GetPlugin_chan w p mod).1
  unfold PluginCache.GetHandler
  cases GoMap.get? p.hdlFuncMap name with
  | some val => dsimp only; split <;> rfl
  | none =>
    dsimp only
    rcases hgp : p.GetPlugin w mod with ⟨r, p1⟩
    rw [hgp] at hp
    cases r with
    | ok plug =>
      dsimp only
      cases plug.Lookup ("New" ++ name) with
      | ok sym => dsimp only; split <;> exact hp
      | err m => exact hp
      | panic m => exact hp
    | err m => exact hp
    | panic m => exact hp

/-- `GetProcessor` leaves the channel table alone. -/
theorem GetProcessor_chanMap (w : World) (p : PluginCache) (mod name : String)
    (hdl : SFHandler) (hdlr : Bool) :
    (p.GetProcessor w mod name hdl hdlr).2.chanMap = p.chanMap := by
  have hp := (GetPlugin_chan w p mod).1
  unfold PluginCache.GetProcessor
  cases GoMap.get? p.procFuncMap name with
  | some val => dsimp only; split <;> split <;> rfl
  | none =>
    dsimp only
    rcases hgp : p.GetPlugin w mod with ⟨r, p1⟩
    rw [hgp] at hp
    cases r with
    | ok plug =>
      dsimp only
      cases plug.Lookup ("New" ++ name) with
      | ok sym => dsimp only; split <;> split <;> exact hp
      | err m => exact hp
      | panic m => exact hp
    | err m => exact hp
    | panic m => exact hp

/-- A call of `GetChan` whose identifier is already in the channel table
returns the stored channel and changes nothing. -/
theorem GetChan_hit (w : World) (p : PluginCache) (mod ch : String) (size : Int)
    (n ty : String) (c : Chan) (hf : strings.Fields ch = [n, ty])
    (hc : GoMap.get? p.chanMap n = some c) :
    p.GetChan w mod ch size = (Result.ok c, p) := by
  unfold PluginCache.GetChan
  simp only [hf, hc]

/-- `GetChan` never changes the binding of an identifier that is already in
the channel table. -/
theorem GetChan_keeps (w : World) (p : PluginCache) (mod ch : String) (size : Int)
    (n : String) (c : Chan) (hc : GoMap.get? p.chanMap n = some c) :
    GoMap.get? (p.GetChan w mod ch size).2.chanMap n = some c := by
  have hp := (GetPlugin_chan w p mod).1
  unfold PluginCache.GetChan
  dsimp only
  split
  · rename_i f0 f1 _
    cases h0 : GoMap.get? p.chanMap f0 with
    | some val => exact hc
    | none =>
      have hne : f0 ≠ n := by
        intro h
        rw [h, hc] at h0
        exact Option.noConfusion h0
      dsimp only
      cases GoMap.get? p.chanFuncMap f1 with
      | some val =>
        dsimp only
        split
        · simp only [PluginCache.callChanCtor, GoMap.set, GoMap.get?, hne, if_false]
          exact hc
        · exact hc
      | none =>
        dsimp only
        rcases hgp : p.GetPlugin w mod with ⟨r, p1⟩
        rw [hgp] at hp
        dsimp only at hp
        cases r with
        | ok plug =>
          dsimp only
          cases plug.Lookup ("New" ++ f1) with
          | ok sym =>
            dsimp only
            split
            · simp only [PluginCache.callChanCtor, GoMap.set, GoMap.get?, hne, if_false, hp]
              exact hc
            · rw [hp]; exact hc
          | err m => dsimp only; rw [hp]; exact hc
          | panic m => dsimp only; rw [hp]; exact hc
        | err m => dsimp only; rw [hp]; exact hc
        | panic m => dsimp only; rw [hp]; exact hc
  · exact hc

/-- A successful `GetChan` leaves its identifier bound to the channel it
returned. -/
theorem GetChan_ok_bound (w : World) (p p1 : PluginCache) (mod ch : String) (size : Int)
    (n ty : String) (c : Chan) (hf : strings.Fields ch = [n, ty])
    (h : p.GetChan w mod ch size = (Result.ok c, p1)) :
    GoMap.get? p1.chanMap n = some c := by
  unfold PluginCache.GetChan at h
  simp only [hf] at h
  cases h0 : GoMap.get? p.chanMap n with
  | some val =>
    simp only [h0, Prod.mk.injEq, Result.ok.injEq] at h
    rw [← h.2, h0, h.1]
  | none =>
    simp only [h0] at h
    cases h1 : GoMap.get? p.chanFuncMap ty with
    | some val =>
      simp only [h1] at h
      split at h
      · simp only [PluginCache.callChanCtor, Prod.mk.injEq, Result.ok.injEq] at h
        rw [← h.2, ← h.1]
        simp [GoMap.set, GoMap.get?]
      · simp at h
    | none =>
      simp only [h1] at h
      rcases hgp : p.GetPlugin w mod with ⟨r, p2⟩
      rw [hgp] at h
      cases r with
      | ok plug =>
        dsimp only at h
        cases hl : plug.Lookup ("New" ++ ty) with
        | ok sym =>
          rw [hl] at h
          dsimp only at h
          split at h
          · simp only [PluginCache.callChanCtor, Prod.mk.injEq, Result.ok.injEq] at h
            rw [← h.2, ← h.1]
            simp [GoMap.set, GoMap.get?]
          · simp at h
        | err m => rw [hl] at h; simp at h
        | panic m => rw [hl] at h; simp at h
      | err m => simp at h
      | panic m => simp at h

/-- The first successful `GetChan` for an identifier invokes exactly one
channel constructor. -/
theorem GetChan_ok_fresh (w : World) (p p1 : PluginCache) (mod ch : String) (size : Int)
    (n ty : String) (c : Chan) (hf : strings.Fields ch = [n, ty])
    (h : p.GetChan w mod ch size = (Result.ok c, p1))
    (h0 : GoMap.get? p.chanMap n = none) :
    p1.chanCalls = p.chanCalls + 1 := by
  have hp := (GetPlugin_chan w p mod).2.1
  unfold PluginCache.GetChan at h
  simp only [hf, h0] at h
  cases h1 : GoMap.get? p.chanFuncMap ty with
  | some val =>
    simp only [h1] at h
    split at h
    · simp only [PluginCache.callChanCtor, Prod.mk.injEq, Result.ok.injEq] at h
      rw [← h.2]
    · simp at h
  | none =>
    simp only [h1] at h
    rcases hgp : p.GetPlugin w mod with ⟨r, p2⟩
    rw [hgp] at h hp
    dsimp only at hp
    cases r with
    | ok plug =>
      dsimp only at h
      cases hl : plug.Lookup ("New" ++ ty) with
      | ok sym =>
        rw [hl] at h
        dsimp only at h
        split at h
        · simp only [PluginCache.callChanCtor, Prod.mk.injEq, Result.ok.injEq] at h
          rw [← h.2]
          simp [hp]
        · simp at h
      | err m => rw [hl] at h; simp at h
      | panic m => rw [hl] at h; simp at h
    | err m => simp at h
    | panic m => simp at h

/-- No client call changes the binding of an identifier that is already in
the channel table. -/
theorem Call_run_keeps (w : World) (p : PluginCache) (call : Call) (n : String) (c : Chan)
    (hc : GoMap.get? p.chanMap n = some c) :
    GoMap.get? (call.run w p).chanMap n = some c := by
  cases call with
  | getPlugin mod => simp only [Call.run, (GetPlugin_chan w p mod).1, hc]
  | getHandler mod name => simp only [Call.run, GetHandler_chanMap, hc]
  | getChan mod ch size => exact GetChan_keeps w p mod ch size n c hc
  | getProcessor mod name hdl hdlr => simp only [Call.run, GetProcessor_chanMap, hc]

theorem runCalls_keeps (w : World) (cs : List Call) (p : PluginCache) (n : String) (c : Chan)
    (hc : GoMap.get? p.chanMap n = some c) :
    GoMap.get? (runCalls w p cs).chanMap n = some c := by
  induction cs generalizing p with
  | nil => exact hc
  | cons call rest ih => exact ih (call.run w p) (Call_run_keeps w p call n c hc)

/-- C4: once `GetChan` has succeeded for a well-formed spec with identifier
`n`, then after any further client calls every `GetChan` whose spec has
identifier `n`, whatever its module path, declared type or capacity, returns
that same channel instance and leaves the cache as it is, the count of
channel constructor invocations included; the first reference to `n`
invoked exactly one constructor. -/
theorem GetChan_same_instance (w : World) (p p1 : PluginCache) (mod ch : String) (size : Int)
    (n ty : String) (c : Chan) (hf : strings.Fields ch = [n, ty])
    (h : p.GetChan w mod ch size = (Result.ok c, p1)) :
    (∀ (cs : List Call) (mod' ch' ty' : String) (size' : Int),
      strings.Fields ch' = [n, ty'] →
      (runCalls w p1 cs).GetChan w mod' ch' size' = (Result.ok c, runCalls w p1 cs)) ∧
    (GoMap.get? p.chanMap n = none → p1.chanCalls = p.chanCalls + 1) := by
  refine ⟨?_, GetChan_ok_fresh w p p1 mod ch size n ty c hf h⟩
  intro cs mod' ch' ty' size' hf'
  exact GetChan_hit w _ mod' ch' size' n ty' c hf'
    (runCalls_keeps w cs p1 n c (GetChan_ok_bound w p p1 mod ch size n ty c hf h))

/-- C4 on a fresh cache: channel `flat` is created once by the built-in
constructor and found again after other calls, under another declared type
and capacity. -/
theorem GetChan_same_instance_witness :
    (runCalls emptyWorld chanCache
        [Call.getChan "" "events FlattenerChan" 5, Call.getPlugin "missing.so"]).GetChan
      emptyWorld "other.so" " flat  FlattenerChan" 99
      = (Result.ok { id := 0, ctor := "SysFlowChan", size := 10 },
          runCalls emptyWorld chanCache
            [Call.getChan "" "events FlattenerChan" 5, Call.getPlugin "missing.so"]) :=
  (GetChan_same_instance emptyWorld (NewPluginCache stdBuiltins) chanCache ""
    "flat SysFlowChan" 10 "flat" "SysFlowChan" { id := 0, ctor := "SysFlowChan", size := 10 }
    (by decide) (by decide)).1
    [Call.getChan "" "events FlattenerChan" 5, Call.getPlugin "missing.so"]
    "other.so" " flat  FlattenerChan" "FlattenerChan" 99 (by decide)

/-- C5 refuted: on a cache where `flat` was created with declared type
`SysFlowChan`, a request for `flat` with declared type `FlattenerChan`
returns that channel and no error. -/
theorem GetChan_type_mismatch_counterexample :
    (NewPluginCache stdBuiltins).GetChan emptyWorld "" "flat SysFlowChan" 10
      = (Result.ok { id := 0, ctor := "SysFlowChan", size := 10 }, chanCache) ∧
    "FlattenerChan" ≠ "SysFlowChan" ∧
    chanCache.GetChan emptyWorld "" "flat FlattenerChan" 10
      = (Result.ok { id := 0, ctor := "SysFlowChan", size := 10 }, chanCache) ∧
    (chanCache.GetChan emptyWorld "" "flat FlattenerChan" 10).1.isErr = false := by
  decide

/-- C5 as amended: after a successful `GetChan` for identifier `n` with
declared type `T1`, a `GetChan` for `n` with a different declared type `T2`
returns the channel created for `T1` and no error, and changes nothing: the
declared type of a later caller is not compared. -/
theorem GetChan_type_ignored (w : World) (p p1 : PluginCache) (mod ch : String) (size : Int)
    (n T1 : String) (c : Chan) (hf : strings.Fields ch = [n, T1])
    (h : p.GetChan w mod ch size = (Result.ok c, p1))
    (mod' ch' T2 : String) (size' : Int) (hf' : strings.Fields ch' = [n, T2]) (hne : T2 ≠ T1) :
    p1.GetChan w mod' ch' size' = (Result.ok c, p1) ∧
      (p1.GetChan w mod' ch' size').1.isErr = false := by
  have hne' := hne
  have hh := GetChan_hit w p1 mod' ch' size' n T2 c hf'
    (GetChan_ok_bound w p p1 mod ch size n T1 c hf h)
  exact ⟨hh, by rw [hh]; rfl⟩

/-- C5 as amended, on the cache where `flat` has type `SysFlowChan`. -/
theorem GetChan_type_ignored_witness :
    chanCache.GetChan emptyWorld "" "flat FlattenerChan" 7
      = (Result.ok { id := 0, ctor := "SysFlowChan", size := 10 }, chanCache) :=
  (GetChan_type_ignored emptyWorld (NewPluginCache stdBuiltins) chanCache ""
    "flat SysFlowChan" 10 "flat" "SysFlowChan" { id := 0, ctor := "SysFlowChan", size := 10 }
    (by decide) (by decide) "" "flat FlattenerChan" "FlattenerChan" 7 (by decide) (by decide)).1

/-- C6: a channel spec that is not exactly two whitespace-separated tokens
makes `GetChan` return an error and no channel, with the cache unchanged: no
channel constructor is invoked, no module is opened, and the channel table
and the module cache stay as they were. -/
theorem GetChan_malformed (w : World) (p : PluginCache) (mod ch : String) (size : Int)
    (h : (strings.Fields ch).length ≠ 2) :
    p.GetChan w mod ch size
        = (Result.err "Channel must be of the form <identifier> <type>", p) ∧
      (p.GetChan w mod ch size).1.isErr = true ∧
      (p.GetChan w mod ch size).2.chanCalls = p.chanCalls ∧
      (p.GetChan w mod ch size).2.opens = p.opens ∧
      (p.GetChan w mod ch size).2.chanMap = p.chanMap ∧
      (p.GetChan w mod ch size).2.pluginMap = p.pluginMap := by
  have hh : p.GetChan w mod ch size
      = (Result.err "Channel must be of the form <identifier> <type>", p) := by
    unfold PluginCache.GetChan
    dsimp only
    split
    · rename_i f0 f1 heq
      rw [heq] at h
      exact absurd rfl h
    · rfl
  rw [hh]
  exact ⟨rfl, rfl, rfl, rfl, rfl, rfl⟩

/-- C6 on specs of zero, one and three tokens. -/
theorem GetChan_malformed_witness :
    (chanCache.GetChan emptyWorld "m.so" "flat SysFlowChan extra" 10).1.isErr = true ∧
    (chanCache.GetChan emptyWorld "m.so" "flat" 10).1.isErr = true ∧
    (chanCache.GetChan emptyWorld "m.so" "  " 10).2 = chanCache :=
  ⟨(GetChan_malformed emptyWorld chanCache "m.so" "flat SysFlowChan extra" 10 (by decide)).2.1,
   (GetChan_malformed emptyWorld chanCache "m.so" "flat" 10 (by decide)).2.1,
   congrArg Prod.snd (GetChan_malformed emptyWorld chanCache "m.so" "  " 10 (by decide)).1⟩

/-- C7 fails on the built-in table: whatever the signatures of the built-in
constructors are, `GetProcessor` on the built-in stage `PolicyEngine` panics
for one of the two values of the handler flag, where the extension path
returns an error; with a zero-argument `NewPolicyEngine` it panics when the
flag is set. -/
theorem GetProcessor_builtin_mismatch_panics (b : Builtins) (w : World) (mod : String)
    (hdl : SFHandler) :
    (∃ hdlr : Bool,
      ((NewPluginCache b).GetProcessor w mod "PolicyEngine" hdl hdlr).1.isPanic = true) ∧
    ((NewPluginCache stdBuiltins).GetProcessor w mod "PolicyEngine" hdl true).1.isPanic = true ∧
    ((NewPluginCache stdBuiltins).GetProcessor w mod "SysFlowProc" hdl false).1.isPanic
      = true := by
  refine ⟨?_, by simp [PluginCache.GetProcessor, NewPluginCache, stdBuiltins, GoMap.get?,
      Result.isPanic], by simp [PluginCache.GetProcessor, NewPluginCache, stdBuiltins,
      GoMap.get?, Result.isPanic]⟩
  by_cases hb : b.NewPolicyEngine = Sig.procFactory
  · exact ⟨true, by simp [PluginCache.GetProcessor, NewPluginCache, GoMap.get?, hb,
      Result.isPanic]⟩
  · exact ⟨false, by simp [PluginCache.GetProcessor, NewPluginCache, GoMap.get?, hb,
      Result.isPanic]⟩

/-- On the extension path a constructor of the wrong signature is reported
as an error. -/
theorem GetProcessor_extension_mismatch_errs :
    ((NewPluginCache stdBuiltins).GetProcessor extWorld "ext.so" "Exporter"
      { ctor := "Flattener" } true).1
      = Result.err "unexpected type from module symbol for processor: NewExporter" := by
  decide

end pipeline

/-! ## The telemetry transcoder -/

namespace exporter

/-! ### Loops that can fail -/

theorem foldlR_append {α β : Type} (f : β → α → Result β) (l1 l2 : List α) (b : β) :
    foldlR f b (l1 ++ l2) = (foldlR f b l1).bind (fun b' => foldlR f b' l2) := by
  induction l1 generalizing b with
  | nil => rfl
  | cons a l ih =>
    simp only [List.cons_append, foldlR]
    cases f b a with
    | ok v => exact ih v
    | err m => rfl
    | panic m => rfl

/-- A property kept by every step of a loop holds when the loop ends. -/
theorem foldlR_invariant {α β : Type} (f : β → α → Result β) (P : β → Prop) (l : List α)
    (hstep : ∀ b a b', a ∈ l → P b → f b a = Result.ok b' → P b') :
    ∀ b b', P b → foldlR f b l = Result.ok b' → P b' := by
  induction l with
  | nil =>
    intro b b' hb h
    simp only [foldlR, Result.ok.injEq] at h
    exact h ▸ hb
  | cons a l ih =>
    intro b b' hb h
    simp only [foldlR] at h
    cases hfa : f b a with
    | ok b1 =>
      rw [hfa] at h
      exact ih (fun b a' b' ha' => hstep b a' b' (List.mem_cons_of_mem _ ha')) b1 b'
        (hstep b a b1 (List.mem_cons_self _ _) hb hfa) h
    | err m => rw [hfa] at h; exact Result.noConfusion h
    | panic m => rw [hfa] at h; exact Result.noConfusion h

/-- A property `Q` that the step on `k0` sets up and every step keeps, under
an invariant `P` of the loop, holds when a loop that passes `k0` ends. -/
theorem foldlR_establish {α β : Type} (f : β → α → Result β) (P Q : β → Prop) (k0 : α)
    (l : List α) (hk0 : k0 ∈ l)
    (hP : ∀ b a b', a ∈ l → P b → f b a = Result.ok b' → P b')
    (hest : ∀ b b', P b → f b k0 = Result.ok b' → Q b')
    (hQ : ∀ b a b', a ∈ l → P b → Q b → f b a = Result.ok b' → Q b') :
    ∀ b b', P b → foldlR f b l = Result.ok b' → Q b' := by
  induction l with
  | nil => exact absurd hk0 (List.not_mem_nil _)
  | cons a l ih =>
    intro b b' hb h
    simp only [foldlR] at h
    cases hfa : f b a with
    | ok b1 =>
      rw [hfa] at h
      have hP1 : P b1 := hP b a b1 (List.mem_cons_self _ _) hb hfa
      have hP' : ∀ b a' b', a' ∈ l → P b → f b a' = Result.ok b' → P b' :=
        fun b a' b' ha' => hP b a' b' (List.mem_cons_of_mem _ ha')
      have hQ' : ∀ b a' b', a' ∈ l → P b → Q b → f b a' = Result.ok b' → Q b' :=
        fun b a' b' ha' => hQ b a' b' (List.mem_cons_of_mem _ ha')
      by_cases hka : k0 = a
      · have hQ1 : Q b1 := hest b b1 hb (hka ▸ hfa)
        have := foldlR_invariant f (fun x => P x ∧ Q x) l
          (fun b a' b' ha' hpq hf' => ⟨hP' b a' b' ha' hpq.1 hf', hQ' b a' b' ha' hpq.1 hpq.2 hf'⟩)
          b1 b' ⟨hP1, hQ1⟩ h
        exact this.2
      · have hmem : k0 ∈ l := by
          rcases List.mem_cons.mp hk0 with h' | h'
          · exact absurd h' hka
          · exact h'
        exact ih hmem hP' hQ' b1 b' hP1 h
    | err m => rw [hfa] at h; exact Result.noConfusion h
    | panic m => rw [hfa] at h; exact Result.noConfusion h

/-- A step that returns has a mapper for its path. -/
theorem structStep_mapper (E : Engine) (rec : Record) (pe ce : Bool) (d d' : DataRecord)
    (k : String) (h : structStep E rec pe ce d k = Result.ok d') :
    ∃ m, E.Mappers k = some m ∧ E.value k rec = m rec := by
  unfold structStep at h
  cases hm : E.Mappers k with
  | none => simp [hm] at h
  | some m => exact ⟨m, rfl, by simp [Engine.value, hm]⟩

end exporter
namespace exporter

theorem extractValue_of_scalar (E : Engine) (k : String) (v : Value) (h : array E k = false) :
    extractValue E k v = v := by
  unfold extractValue
  cases v <;> simp [h]

theorem extractValue_eq_str (E : Engine) (k : String) (v : Value) (s : String)
    (h : extractValue E k v = Value.str s) : v = Value.str s := by
  unfold extractValue at h
  cases v with
  | str s' =>
    by_cases ha : array E k = true
    · simp [ha] at h
    · simpa [ha] using h
  | nil => exact h
  | int64 i => exact h
  | strs l => exact h
  | other r => exact h

theorem extractValue_eq_int64 (E : Engine) (k : String) (v : Value) (i : Int)
    (h : extractValue E k v = Value.int64 i) : v = Value.int64 i := by
  unfold extractValue at h
  cases v with
  | str s' =>
    by_cases ha : array E k = true
    · simp [ha] at h
    · simp [ha] at h
  | nil => exact h
  | int64 i => exact h
  | strs l => exact h
  | other r => exact h

/-- What one step of the structured loop does to a sub-structure. -/
theorem structStep_sub (E : Engine) (rec : Record) (pe ce : Bool) (d d' : DataRecord)
    (k : String) (h : structStep E rec pe ce d k = Result.ok d') (D : Domain) :
    d'.sub D = d.sub D ∨
      ∃ b, subKey k = some (D.name, b) ∧ writesTo E pe ce d D = true ∧
        d'.sub D = some ((b, extractValue E k (E.value k rec)) :: (d.sub D).getD []) := by
  unfold structStep at h
  cases hm : E.Mappers k with
  | none => simp [hm] at h
  | some m =>
    have hv : E.value k rec = m rec := by simp [Engine.value, hm]
    simp only [hm] at h
    split at h
    · -- two segments
      rename_i a kc1 hs
      left
      split at h
      · simp only [DataRecord.SetString] at h
        split at h
        · cases h; cases D <;> rfl
        · exact Result.noConfusion h
      · simp only [DataRecord.SetInt] at h
        split_ifs at h <;> (cases h; cases D <;> rfl)
      · simp only [DataRecord.Set] at h
        split at h
        · cases h; cases D <;> rfl
        · exact Result.noConfusion h
      · cases h; rfl
    · -- three segments
      rename_i a kc1 kc2 hs
      have hk : subKey k = some (kc1, kc2) := by simp [subKey, hs]
      rw [hk, hv]
      split_ifs at h <;> cases h <;> cases D <;>
        first
        | (left; rfl)
        | (right
           refine ⟨kc2, by simp_all [Domain.name], by simp_all [writesTo], ?_⟩
           simp only [DataRecord.sub, GoMap.set]
           first
           | (cases d.ProcData <;> rfl)
           | (cases d.PprocData <;> rfl)
           | (cases d.NetData <;> rfl)
           | (cases d.FileData <;> rfl)
           | (cases d.FlowData <;> rfl)
           | (cases d.ContData <;> rfl)
           | (cases d.NodeData <;> rfl))
    · cases h; left; rfl

/-- A step on a three-segment path whose sub-structure is being written
puts the value under the third segment. -/
theorem structStep_write (E : Engine) (rec : Record) (pe ce : Bool) (d d' : DataRecord)
    (k : String) (h : structStep E rec pe ce d k = Result.ok d') (D : Domain) (b : String)
    (hk : subKey k = some (D.name, b)) (hw : writesTo E pe ce d D = true) :
    d'.sub D = some ((b, extractValue E k (E.value k rec)) :: (d.sub D).getD []) := by
  unfold structStep at h
  cases hm : E.Mappers k with
  | none => simp [hm] at h
  | some m =>
    have hv : E.value k rec = m rec := by simp [Engine.value, hm]
    simp only [hm] at h
    unfold subKey at hk
    split at h
    · rename_i a kc1 hs
      simp [hs] at hk
    · rename_i a kc1 kc2 hs
      simp only [hs, Option.some.injEq, Prod.mk.injEq] at hk
      obtain ⟨hk1, hk2⟩ := hk
      subst hk2
      rw [hv]
      cases D <;> simp only [Domain.name] at hk1 <;> subst hk1 <;>
        simp only [writesTo, decide_eq_true_eq] at hw <;>
        simp [hw, exporter.proc, exporter.pproc, exporter.net, exporter.file, exporter.flow,
          exporter.container, exporter.node] at h <;> subst h <;>
        simp only [DataRecord.sub, GoMap.set] <;>
        first
        | (cases d.ProcData <;> rfl)
        | (cases d.PprocData <;> rfl)
        | (cases d.NetData <;> rfl)
        | (cases d.FileData <;> rfl)
        | (cases d.FlowData <;> rfl)
        | (cases d.ContData <;> rfl)
        | (cases d.NodeData <;> rfl)
    · rename_i hn2 hn3
      split at hk
      · rename_i a kc1 kc2 hs
        exact absurd hs (hn3 a kc1 kc2)
      · exact Option.noConfusion hk

/-- What one step of the structured loop does to the attribute `Type`. -/
theorem structStep_Type (E : Engine) (rec : Record) (pe ce : Bool) (d d' : DataRecord)
    (k : String) (h : structStep E rec pe ce d k = Result.ok d') :
    d'.Type_ = d.Type_ ∨ (attrKey k = some "Type" ∧ E.value k rec = Value.str d'.Type_) := by
  unfold structStep at h
  cases hm : E.Mappers k with
  | none => simp [hm] at h
  | some m =>
    have hv : E.value k rec = m rec := by simp [Engine.value, hm]
    simp only [hm] at h
    split at h
    · rename_i a kc1 hs
      have hk : attrKey k = some (strings.Title kc1) := by simp [attrKey, hs]
      split at h
      · rename_i s hs'
        simp only [DataRecord.SetString] at h
        split at h
        · rename_i hT
          cases h
          right
          exact ⟨by rw [hk, hT], by rw [hv]; exact extractValue_eq_str E k _ s hs'⟩
        · exact Result.noConfusion h
      · simp only [DataRecord.SetInt] at h
        split_ifs at h <;> (cases h; left; rfl)
      · simp only [DataRecord.Set] at h
        split at h
        · cases h; left; rfl
        · exact Result.noConfusion h
      · cases h; left; rfl
    · left
      split_ifs at h <;> cases h <;> rfl
    · cases h; left; rfl

/-- What one step of the structured loop does to the attribute `Ts`. -/
theorem structStep_Ts (E : Engine) (rec : Record) (pe ce : Bool) (d d' : DataRecord)
    (k : String) (h : structStep E rec pe ce d k = Result.ok d') :
    d'.Ts = d.Ts ∨ (attrKey k = some "Ts" ∧ E.value k rec = Value.int64 d'.Ts) := by
  unfold structStep at h
  cases hm : E.Mappers k with
  | none => simp [hm] at h
  | some m =>
    have hv : E.value k rec = m rec := by simp [Engine.value, hm]
    simp only [hm] at h
    split at h
    · rename_i a kc1 hs
      have hk : attrKey k = some (strings.Title kc1) := by simp [attrKey, hs]
      split at h
      · simp only [DataRecord.SetString] at h
        split at h
        · cases h; left; rfl
        · exact Result.noConfusion h
      · rename_i i hi
        have hi' := extractValue_eq_int64 E k _ i hi
        simp only [DataRecord.SetInt] at h
        split_ifs at h with h1 h2 h3 h4
        · cases h; left; rfl
        · cases h; right; exact ⟨by rw [hk, h2], by rw [hv]; exact hi'⟩
        · cases h; left; rfl
        · cases h; left; rfl
      · simp only [DataRecord.Set] at h
        split at h
        · cases h; left; rfl
        · exact Result.noConfusion h
      · cases h; left; rfl
    · left
      split_ifs at h <;> cases h <;> rfl
    · cases h; left; rfl

/-- A step on the path of the attribute `Type` whose value is a string sets
the attribute. -/
theorem structStep_Type_write (E : Engine) (rec : Record) (pe ce : Bool) (d d' : DataRecord)
    (k : String) (h : structStep E rec pe ce d k = Result.ok d') (t : String)
    (hk : attrKey k = some "Type") (hv : E.value k rec = Value.str t) :
    d'.Type_ = t := by
  unfold structStep at h
  cases hm : E.Mappers k with
  | none => simp [hm] at h
  | some m =>
    have hv' : m rec = Value.str t := by simpa [Engine.value, hm] using hv
    simp only [hm, hv'] at h
    unfold attrKey at hk
    split at h
    · rename_i a kc1 hs
      simp only [hs, Option.some.injEq] at hk
      unfold extractValue at h
      by_cases ha : array E k = true
      · simp [ha, DataRecord.Set, hk] at h
      · simp only [ha, Bool.false_eq_true, if_false, DataRecord.SetString, hk, if_true] at h
        cases h
        rfl
    · rename_i a kc1 kc2 hs
      simp [hs] at hk
    · rename_i hn2 hn3
      split at hk
      · rename_i a kc1 hs
        exact absurd hs (hn2 a kc1)
      · exact Option.noConfusion hk

/-- A step on the path of the attribute `Ts` whose value is an `int64` sets
the attribute. -/
theorem structStep_Ts_write (E : Engine) (rec : Record) (pe ce : Bool) (d d' : DataRecord)
    (k : String) (h : structStep E rec pe ce d k = Result.ok d') (ts : Int)
    (hk : attrKey k = some "Ts") (hv : E.value k rec = Value.int64 ts) :
    d'.Ts = ts := by
  unfold structStep at h
  cases hm : E.Mappers k with
  | none => simp [hm] at h
  | some m =>
    have hv' : m rec = Value.int64 ts := by simpa [Engine.value, hm] using hv
    simp only [hm, hv'] at h
    unfold attrKey at hk
    split at h
    · rename_i a kc1 hs
      simp only [hs, Option.some.injEq] at hk
      simp [extractValue, DataRecord.SetInt, hk] at h
      cases h
      rfl
    · rename_i a kc1 kc2 hs
      simp [hs] at hk
    · rename_i hn2 hn3
      split at hk
      · rename_i a kc1 hs
        exact absurd hs (hn2 a kc1)
      · exact Option.noConfusion hk

end exporter
namespace exporter

theorem bind_eq_ok {α β : Type} (r : Result α) (f : α → Result β) (y : β)
    (h : r.bind f = Result.ok y) : ∃ x, r = Result.ok x ∧ f x = Result.ok y := by
  cases r with
  | ok x => exact ⟨x, rfl, h⟩
  | err m => exact Result.noConfusion h
  | panic m => exact Result.noConfusion h

/-- A path is not both a two-segment and a three-segment path. -/
theorem attrKey_subKey (k : String) (n : String) (p : String × String)
    (h2 : attrKey k = some n) (h3 : subKey k = some p) : False := by
  unfold attrKey at h2
  unfold subKey at h3
  split at h2
  · rename_i a kc1 hs
    simp [hs] at h3
  · exact Option.noConfusion h2

/-- A list that contains `x` is what precedes the first `x`, then `x`, then
a rest. -/
theorem exists_split_at_first (l : List String) (x : String) (hx : x ∈ l) :
    ∃ pre rest, l = pre ++ x :: rest ∧ pre = l.takeWhile (fun k => decide (k ≠ x)) := by
  induction l with
  | nil => exact absurd hx (List.not_mem_nil _)
  | cons a l ih =>
    by_cases ha : a = x
    · exact ⟨[], l, by simp [ha], by simp [List.takeWhile, ha]⟩
    · have hx' : x ∈ l := by
        rcases List.mem_cons.mp hx with h | h
        · exact absurd h.symm ha
        · exact h
      obtain ⟨pre, rest, hrest, hpre⟩ := ih hx'
      refine ⟨a :: pre, rest, ?_, ?_⟩
      · rw [List.cons_append, ← hrest]
      · simp only [List.takeWhile, ne_eq, ha, not_false_eq_true, decide_True]
        rw [hpre]

/-- A step on a listed path keeps the attribute `Type` at the value of the
type path. -/
theorem structStep_Type_keep (E : Engine) (rec : Record) (pe ce : Bool) (t : String)
    (hT : AttrPath E E.SF_TYPE "Type") (hv : E.value E.SF_TYPE rec = Value.str t)
    (b b' : DataRecord) (a : String) (ha : a ∈ E.Fields) (hb : b.Type_ = t)
    (hstep : structStep E rec pe ce b a = Result.ok b') : b'.Type_ = t := by
  rcases structStep_Type E rec pe ce b b' a hstep with h | ⟨hk, hval⟩
  · rw [h, hb]
  · have := hT.2.2 a ha hk
    rw [this, hv] at hval
    exact (Value.str.inj hval).symm

/-- The structured loop keeps the attribute `Type` at the value of the
type path once it has it. -/
theorem loop_Type_keep (E : Engine) (rec : Record) (pe ce : Bool) (t : String)
    (hT : AttrPath E E.SF_TYPE "Type") (hv : E.value E.SF_TYPE rec = Value.str t)
    (l : List String) (hl : ∀ k ∈ l, k ∈ E.Fields) :
    ∀ d d', d.Type_ = t → foldlR (structStep E rec pe ce) d l = Result.ok d' →
      d'.Type_ = t := by
  apply foldlR_invariant
  intro b a b' ha hb hstep
  rcases structStep_Type E rec pe ce b b' a hstep with h | ⟨hk, hval⟩
  · rw [h, hb]
  · have := hT.2.2 a (hl a ha) hk
    rw [this, hv] at hval
    exact (Value.str.inj hval).symm

/-- The structured loop over the whole enumeration leaves the attribute
`Type` at the value of the type path. -/
theorem loop_Type_set (E : Engine) (rec : Record) (pe ce : Bool) (t : String)
    (hT : AttrPath E E.SF_TYPE "Type") (hv : E.value E.SF_TYPE rec = Value.str t)
    (d d' : DataRecord) (h : foldlR (structStep E rec pe ce) d E.Fields = Result.ok d') :
    d'.Type_ = t := by
  refine foldlR_establish (structStep E rec pe ce) (fun _ => True) (fun x => x.Type_ = t)
    E.SF_TYPE E.Fields hT.1 (fun _ _ _ _ _ _ => trivial) ?_ ?_ d d' trivial h
  · intro b b' _ hstep
    exact structStep_Type_write E rec pe ce b b' _ hstep t hT.2.1 hv
  · intro b a b' ha _ hb hstep
    rcases structStep_Type E rec pe ce b b' a hstep with h | ⟨hk, hval⟩
    · rw [h, hb]
    · have := hT.2.2 a ha hk
      rw [this, hv] at hval
      exact (Value.str.inj hval).symm

/-- The structured loop over the whole enumeration leaves the attribute
`Ts` at the value of the timestamp path. -/
theorem loop_Ts_set (E : Engine) (rec : Record) (pe ce : Bool) (ts : Int)
    (hT : AttrPath E E.SF_TS "Ts") (hv : E.value E.SF_TS rec = Value.int64 ts)
    (d d' : DataRecord) (h : foldlR (structStep E rec pe ce) d E.Fields = Result.ok d') :
    d'.Ts = ts := by
  refine foldlR_establish (structStep E rec pe ce) (fun _ => True) (fun x => x.Ts = ts)
    E.SF_TS E.Fields hT.1 (fun _ _ _ _ _ _ => trivial) ?_ ?_ d d' trivial h
  · intro b b' _ hstep
    exact structStep_Ts_write E rec pe ce b b' _ hstep ts hT.2.1 hv
  · intro b a b' ha _ hb hstep
    rcases structStep_Ts E rec pe ce b b' a hstep with h | ⟨hk, hval⟩
    · rw [h, hb]
    · have := hT.2.2 a ha hk
      rw [this, hv] at hval
      exact (Value.int64.inj hval).symm

/-- A sub-structure that the loop does not write into stays nil. -/
theorem loop_sub_none (E : Engine) (rec : Record) (pe ce : Bool) (D : Domain)
    (P : DataRecord → Prop) (l : List String)
    (hP : ∀ b a b', a ∈ l → P b → structStep E rec pe ce b a = Result.ok b' → P b')
    (hw : ∀ b, P b → writesTo E pe ce b D = false) :
    ∀ d d', P d → d.sub D = none → foldlR (structStep E rec pe ce) d l = Result.ok d' →
      d'.sub D = none := by
  intro d d' hPd hd h
  have := foldlR_invariant (structStep E rec pe ce) (fun x => P x ∧ x.sub D = none) l
    (by
      intro b a b' ha hb hstep
      refine ⟨hP b a b' ha hb.1 hstep, ?_⟩
      rcases structStep_sub E rec pe ce b b' a hstep D with h | ⟨_, _, hwt, _⟩
      · rw [h, hb.2]
      · rw [hw b hb.1] at hwt
        exact Bool.noConfusion hwt) d d' ⟨hPd, hd⟩ h
  exact this.2

/-- After a loop that passes the path `k0` of a sub-structure being written,
the sub-structure holds the value of `k0` under its last segment. -/
theorem loop_sub_entry (E : Engine) (rec : Record) (pe ce : Bool) (D : Domain) (k0 : String)
    (hS : SubPath E k0 D) (P : DataRecord → Prop) (l : List String)
    (hl : ∀ k ∈ l, k ∈ E.Fields) (hk0 : k0 ∈ l)
    (hP : ∀ b a b', a ∈ l → P b → structStep E rec pe ce b a = Result.ok b' → P b')
    (hw : ∀ b, P b → writesTo E pe ce b D = true) :
    ∀ d d', P d → foldlR (structStep E rec pe ce) d l = Result.ok d' →
      ∃ m, d'.sub D = some m ∧ GoMap.get? m (E.LastPart k0) = some (E.value k0 rec) := by
  have hsc : extractValue E k0 (E.value k0 rec) = E.value k0 rec :=
    extractValue_of_scalar E k0 _ hS.2.2.2
  refine foldlR_establish (structStep E rec pe ce) P
    (fun x => ∃ m, x.sub D = some m ∧ GoMap.get? m (E.LastPart k0) = some (E.value k0 rec))
    k0 l hk0 hP ?_ ?_
  · intro b b' hb hstep
    refine ⟨_, structStep_write E rec pe ce b b' k0 hstep D _ hS.2.1 (hw b hb), ?_⟩
    simp [GoMap.get?, hsc]
  · intro b a b' ha _ hq hstep
    obtain ⟨m, hm, hget⟩ := hq
    rcases structStep_sub E rec pe ce b b' a hstep D with h | ⟨b2, hk, _, hsub⟩
    · exact ⟨m, by rw [h, hm], hget⟩
    · refine ⟨_, hsub, ?_⟩
      rw [hm]
      simp only [Option.getD_some, GoMap.get?]
      by_cases hb2 : b2 = E.LastPart k0
      · have hak : a = k0 := hS.2.2.1 a (hl a ha) (by rw [hk, hb2])
        simp [hb2, hak, hsc]
      · simp [hb2, hget]

end exporter
namespace exporter

/-- The structured branch of `extractTelemetryRecord`: the output carries
the record that the structured loop builds. -/
theorem extract_struct (E : Engine) (rec : Record) (cfg : Config) (out : TelemetryRecord)
    (hflat : cfg.Flat = false) (h : extractTelemetryRecord E rec cfg = Result.ok out) :
    ∃ d, out.DataRecord = some d ∧ out.FlatRecord = none ∧
      foldlR (structStep E rec (decide (E.MapInt E.SF_PPROC_PID rec ≠ 0))
        (decide (E.MapStr E.SF_CONTAINER_ID rec ≠ ""))) DataRecord.new E.Fields
        = Result.ok d := by
  unfold extractTelemetryRecord at h
  simp only [hflat, Bool.false_eq_true, if_false] at h
  obtain ⟨r1, hr1, h⟩ := bind_eq_ok _ _ _ h
  obtain ⟨d, hd, hr⟩ := bind_eq_ok _ _ _ hr1
  refine ⟨d, ?_, ?_, hd⟩
  · cases hr
    cases h
    split_ifs <;> rfl
  · cases hr
    cases h
    split_ifs <;> rfl

/-- The flat branch of `extractTelemetryRecord`: the output carries the map
that the flat loop builds. -/
theorem extract_flat (E : Engine) (rec : Record) (cfg : Config) (out : TelemetryRecord)
    (hflat : cfg.Flat = true) (h : extractTelemetryRecord E rec cfg = Result.ok out) :
    ∃ data, out.FlatRecord = some { Data := data } ∧
      foldlR (flatStep E rec) [] E.Fields = Result.ok data := by
  unfold extractTelemetryRecord at h
  simp only [hflat, if_true] at h
  obtain ⟨r1, hr1, h⟩ := bind_eq_ok _ _ _ h
  obtain ⟨data, hd, hr⟩ := bind_eq_ok _ _ _ hr1
  refine ⟨data, ?_, hd⟩
  cases hr
  cases h
  split_ifs <;> rfl

/-- The flat output holds under every listed path the value of its
mapper. -/
theorem flat_entry (E : Engine) (rec : Record) (k : String) (hk : k ∈ E.Fields)
    (data0 data : GoMap Value) (h : foldlR (flatStep E rec) data0 E.Fields = Result.ok data) :
    GoMap.get? data k = some (E.value k rec) := by
  refine foldlR_establish (flatStep E rec) (fun _ => True)
    (fun x => GoMap.get? x k = some (E.value k rec)) k E.Fields hk
    (fun _ _ _ _ _ _ => trivial) ?_ ?_ data0 data trivial h
  · intro b b' _ hstep
    unfold flatStep at hstep
    cases hm : E.Mappers k with
    | none => simp [hm] at hstep
    | some m =>
      simp only [hm, Result.ok.injEq] at hstep
      subst hstep
      simp [GoMap.get?, GoMap.set, Engine.value, hm]
  · intro b a b' _ _ hq hstep
    unfold flatStep at hstep
    cases hm : E.Mappers a with
    | none => simp [hm] at hstep
    | some m =>
      simp only [hm, Result.ok.injEq] at hstep
      subst hstep
      by_cases hak : a = k
      · subst hak
        simp [GoMap.get?, GoMap.set, Engine.value, hm]
      · simp [GoMap.get?, GoMap.set, hak, hq]

/-- C8: the structured output carries no parent-process sub-structure when
the parent-process identifier of the record is zero, and when the
identifier is not zero it carries one that has an entry for every listed
parent-process path (so it is non-nil as soon as one such path is
listed). -/
theorem extract_pproc (E : Engine) (rec : Record) (cfg : Config) (out : TelemetryRecord)
    (hflat : cfg.Flat = false) (h : extractTelemetryRecord E rec cfg = Result.ok out) :
    ∃ d, out.DataRecord = some d ∧
      (E.MapInt E.SF_PPROC_PID rec = 0 → d.PprocData = none) ∧
      (E.MapInt E.SF_PPROC_PID rec ≠ 0 →
        (∀ k ∈ E.Fields, ∀ b, subKey k = some (pproc, b) →
          ∃ pd, d.PprocData = some pd ∧ (GoMap.get? pd.Pproc b).isSome = true) ∧
        ((∃ k ∈ E.Fields, ∃ b, subKey k = some (pproc, b)) → d.PprocData ≠ none)) := by
  obtain ⟨d, hd, _, hloop⟩ := extract_struct E rec cfg out hflat h
  refine ⟨d, hd, ?_, ?_⟩
  · intro hz
    have := loop_sub_none E rec _ _ Domain.pproc (fun _ => True) E.Fields
      (fun _ _ _ _ _ _ => trivial) (fun _ _ => by simp [writesTo, hz])
      DataRecord.new d trivial rfl hloop
    simpa [DataRecord.sub] using this
  · intro hnz
    have hall : ∀ k ∈ E.Fields, ∀ b, subKey k = some (pproc, b) →
        ∃ pd, d.PprocData = some pd ∧ (GoMap.get? pd.Pproc b).isSome = true := by
      intro k hk b hkb
      have := foldlR_establish (structStep E rec (decide (E.MapInt E.SF_PPROC_PID rec ≠ 0))
          (decide (E.MapStr E.SF_CONTAINER_ID rec ≠ ""))) (fun _ => True)
        (fun x => ∃ m, x.sub Domain.pproc = some m ∧ (GoMap.get? m b).isSome = true)
        k E.Fields hk (fun _ _ _ _ _ _ => trivial)
        (by
          intro x x' _ hstep
          refine ⟨_, structStep_write E rec _ _ x x' k hstep Domain.pproc b hkb
            (by simp [writesTo, hnz]), ?_⟩
          simp [GoMap.get?])
        (by
          intro x a x' _ _ hq hstep
          obtain ⟨m, hm, hget⟩ := hq
          rcases structStep_sub E rec _ _ x x' a hstep Domain.pproc with h' | ⟨b2, _, _, hsub⟩
          · exact ⟨m, by rw [h', hm], hget⟩
          · refine ⟨_, hsub, ?_⟩
            rw [hm]
            simp only [Option.getD_some, GoMap.get?]
            by_cases hb2 : b2 = b
            · simp [hb2]
            · simp [hb2, hget])
        DataRecord.new d trivial hloop
      obtain ⟨m, hm, hget⟩ := this
      simp only [DataRecord.sub, Option.map_eq_some'] at hm
      obtain ⟨pd, hpd, hpm⟩ := hm
      exact ⟨pd, hpd, by rw [hpm]; exact hget⟩
    refine ⟨hall, ?_⟩
    rintro ⟨k, hk, b, hkb⟩
    obtain ⟨pd, hpd, _⟩ := hall k hk b hkb
    rw [hpd]
    exact Option.noConfusion

/-- C9: when no listed path of the attribute `Type` gives the network-flow
type string for the record, the structured output has no network
sub-structure, whatever the field enumeration lists and whatever the
network mappers return. -/
theorem extract_no_net (E : Engine) (rec : Record) (cfg : Config) (out : TelemetryRecord)
    (hflat : cfg.Flat = false) (h : extractTelemetryRecord E rec cfg = Result.ok out)
    (hNF : E.TyNFStr ≠ "")
    (htype : ∀ k ∈ E.Fields, attrKey k = some "Type" → E.value k rec ≠ Value.str E.TyNFStr) :
    ∃ d, out.DataRecord = some d ∧ d.NetData = none := by
  obtain ⟨d, hd, _, hloop⟩ := extract_struct E rec cfg out hflat h
  refine ⟨d, hd, ?_⟩
  have := loop_sub_none E rec _ _ Domain.net (fun x => x.Type_ ≠ E.TyNFStr) E.Fields
    (by
      intro b a b' ha hb hstep
      rcases structStep_Type E rec _ _ b b' a hstep with h' | ⟨hk, hval⟩
      · rw [h']; exact hb
      · intro heq
        rw [heq] at hval
        exact htype a ha hk hval)
    (fun b hb => by simp [writesTo, hb])
    DataRecord.new d (fun heq => hNF heq.symm) rfl hloop
  simpa [DataRecord.sub] using this

end exporter
namespace exporter

theorem GoMap.get_of_get? (m : GoMap Value) (k : String) (v : Value)
    (h : GoMap.get? m k = some v) : GoMap.get m k = v := by
  simp [GoMap.get, h]

/-- Under an enumeration that lists the type path before the file and
network paths, the file or network sub-structure that the event type
selects holds, after the structured loop, the value of each of its
single-valued paths under the last segment of the path. -/
theorem loop_typed_entry (E : Engine) (rec : Record) (pe ce : Bool) (t : String)
    (hT : AttrPath E E.SF_TYPE "Type") (hfirst : TypeFirst E)
    (hv : E.value E.SF_TYPE rec = Value.str t) (D : Domain)
    (hD : D.name = file ∨ D.name = net)
    (hw : ∀ b : DataRecord, b.Type_ = t → writesTo E pe ce b D = true)
    (k0 : String) (hS : SubPath E k0 D) (d0 d : DataRecord)
    (h : foldlR (structStep E rec pe ce) d0 E.Fields = Result.ok d) :
    ∃ m, d.sub D = some m ∧ GoMap.get? m (E.LastPart k0) = some (E.value k0 rec) := by
  obtain ⟨pre, rest, hsplit, hpre⟩ := exists_split_at_first E.Fields E.SF_TYPE hT.1
  have hmem : ∀ k, k ∈ E.Fields ↔ k ∈ pre ∨ k = E.SF_TYPE ∨ k ∈ rest := by
    intro k
    rw [hsplit]
    simp [List.mem_append, List.mem_cons]
  rw [hsplit, foldlR_append] at h
  obtain ⟨d1, _, h⟩ := bind_eq_ok _ _ _ h
  simp only [foldlR] at h
  obtain ⟨d2, hstep, h⟩ := bind_eq_ok _ _ _ h
  have hd2 : d2.Type_ = t := structStep_Type_write E rec pe ce d1 d2 _ hstep t hT.2.1 hv
  have hk0 : k0 ∈ rest := by
    rcases (hmem k0).mp hS.1 with h1 | h1 | h1
    · rw [hpre] at h1
      have hfst : (subKey k0).map Prod.fst = some D.name := by rw [hS.2.1]; rfl
      have := hfirst k0 h1
      rcases hD with hD | hD
      · exact absurd (hD ▸ hfst) this.1
      · exact absurd (hD ▸ hfst) this.2
    · exact (attrKey_subKey k0 _ _ (h1 ▸ hT.2.1) hS.2.1).elim
    · exact h1
  have hl : ∀ k ∈ rest, k ∈ E.Fields := fun k hk => (hmem k).mpr (Or.inr (Or.inr hk))
  exact loop_sub_entry E rec pe ce D k0 hS (fun x => x.Type_ = t) rest hl hk0
    (fun b a b' ha hb hs => structStep_Type_keep E rec pe ce t hT hv b b' a (hl a ha) hb hs)
    hw d2 d hd2 h

/-- C10: under an enumeration that lists the type path before the file
and network paths, for a record of network-flow type and a listed network
path `k` that is not list-like and is the one listed path of its last
segment, the structured output carries a network sub-structure whose entry
under the last segment of `k` is the value the flat output holds under
`k`. -/
theorem extract_net_entry (E : Engine) (rec : Record) (cfgF cfgS : Config)
    (f s : TelemetryRecord) (hF : cfgF.Flat = true) (hS : cfgS.Flat = false)
    (hf : extractTelemetryRecord E rec cfgF = Result.ok f)
    (hs : extractTelemetryRecord E rec cfgS = Result.ok s)
    (hT : AttrPath E E.SF_TYPE "Type") (hfirst : TypeFirst E)
    (hNF : E.value E.SF_TYPE rec = Value.str E.TyNFStr)
    (k : String) (hk : SubPath E k Domain.net) :
    ∃ d nd fr v, s.DataRecord = some d ∧ d.NetData = some nd ∧ f.FlatRecord = some fr ∧
      GoMap.get? fr.Data k = some v ∧ GoMap.get? nd.Net (E.LastPart k) = some v := by
  obtain ⟨d, hd, _, hloop⟩ := extract_struct E rec cfgS s hS hs
  obtain ⟨data, hdata, hfl⟩ := extract_flat E rec cfgF f hF hf
  obtain ⟨m, hm, hget⟩ := loop_typed_entry E rec _ _ E.TyNFStr hT hfirst hNF Domain.net
    (Or.inr rfl) (fun b hb => by simp [writesTo, hb]) k hk DataRecord.new d hloop
  simp only [DataRecord.sub, Option.map_eq_some'] at hm
  obtain ⟨nd, hnd, hnm⟩ := hm
  exact ⟨d, nd, { Data := data }, E.value k rec, hd, hnd, hdata,
    flat_entry E rec k hk.1 [] data hfl, by rw [hnm]; exact hget⟩

/-- The coordinate tuple of the flat output: the six common coordinates,
container id included, then the coordinates of the event type. -/
theorem flat_IDTuple (E : Engine) (rec : Record) (cfg : Config) (f : TelemetryRecord)
    (hflat : cfg.Flat = true) (hf : extractTelemetryRecord E rec cfg = Result.ok f)
    (hS : IDSchema E) (t : String) (hty : E.value E.SF_TYPE rec = Value.str t) :
    f.IDTuple E = Result.ok
      ([E.value E.SF_NODE_ID rec, E.value E.SF_CONTAINER_ID rec, E.value E.SF_TS rec,
        E.value E.SF_PROC_TID rec, E.value E.SF_PROC_CREATETS rec, Value.str t]
        ++ typeCoordinates E rec t) := by
  obtain ⟨data, hdata, hfl⟩ := extract_flat E rec cfg f hflat hf
  have hg : ∀ k, k ∈ E.Fields → GoMap.get data k = E.value k rec :=
    fun k hk => GoMap.get_of_get? _ _ _ (flat_entry E rec k hk [] data hfl)
  unfold TelemetryRecord.IDTuple typeCoordinates
  simp only [hdata, hg _ hS.typePath.1, hty, hg _ hS.nodeID.1, hg _ hS.containerID.1,
    hg _ hS.tsPath.1, hg _ hS.procTID.1, hg _ hS.procCreateTS.1, hg _ hS.fileOID.1,
    hg _ hS.netSIP.1, hg _ hS.netSPort.1, hg _ hS.netDIP.1, hg _ hS.netDPort.1,
    hg _ hS.netProto.1]
  split_ifs <;> rfl

end exporter
namespace exporter

/-- The coordinate tuple of the structured output: as the flat one, except
that the container coordinate is there only when the record has a container
identifier. -/
theorem struct_IDTuple (E : Engine) (rec : Record) (cfg : Config) (s : TelemetryRecord)
    (hflat : cfg.Flat = false) (hs : extractTelemetryRecord E rec cfg = Result.ok s)
    (hS : IDSchema E) (t : String) (ts : Int)
    (hty : E.value E.SF_TYPE rec = Value.str t)
    (hts : E.value E.SF_TS rec = Value.int64 ts) :
    s.IDTuple E = Result.ok
      ([E.value E.SF_NODE_ID rec]
        ++ (if E.MapStr E.SF_CONTAINER_ID rec ≠ "" then [E.value E.SF_CONTAINER_ID rec] else [])
        ++ [Value.int64 ts, E.value E.SF_PROC_TID rec, E.value E.SF_PROC_CREATETS rec,
            Value.str t]
        ++ typeCoordinates E rec t) := by
  obtain ⟨d, hd, hfr, hloop⟩ := extract_struct E rec cfg s hflat hs
  have hll : ∀ k ∈ E.Fields, k ∈ E.Fields := fun _ h => h
  have hType : d.Type_ = t := loop_Type_set E rec _ _ t hS.typePath hty _ d hloop
  have hTs : d.Ts = ts := loop_Ts_set E rec _ _ ts hS.tsPath hts _ d hloop
  -- node
  obtain ⟨mn, hmn, hnode⟩ := loop_sub_entry E rec _ _ Domain.node _ hS.nodeID (fun _ => True)
    E.Fields hll hS.nodeID.1 (fun _ _ _ _ _ _ => trivial) (fun _ _ => rfl) _ d trivial hloop
  simp only [DataRecord.sub, Option.map_eq_some'] at hmn
  obtain ⟨nd, hnd, hndm⟩ := hmn
  subst hndm
  -- proc
  obtain ⟨mp, hmp, htid⟩ := loop_sub_entry E rec _ _ Domain.proc _ hS.procTID (fun _ => True)
    E.Fields hll hS.procTID.1 (fun _ _ _ _ _ _ => trivial) (fun _ _ => rfl) _ d trivial hloop
  obtain ⟨mp', hmp', hcre⟩ := loop_sub_entry E rec _ _ Domain.proc _ hS.procCreateTS
    (fun _ => True) E.Fields hll hS.procCreateTS.1 (fun _ _ _ _ _ _ => trivial)
    (fun _ _ => rfl) _ d trivial hloop
  rw [hmp] at hmp'
  cases hmp'
  simp only [DataRecord.sub, Option.map_eq_some'] at hmp
  obtain ⟨pd, hpd, hpdm⟩ := hmp
  subst hpdm
  -- container
  have hcont : (match d.ContData with
      | some cd =>
        match GoMap.get? cd.Container (E.LastPart E.SF_CONTAINER_ID) with
        | some v => [GoMap.get nd.Node (E.LastPart E.SF_NODE_ID)] ++ [v]
        | none => [GoMap.get nd.Node (E.LastPart E.SF_NODE_ID)]
      | none => [GoMap.get nd.Node (E.LastPart E.SF_NODE_ID)])
      = [E.value E.SF_NODE_ID rec]
        ++ (if E.MapStr E.SF_CONTAINER_ID rec ≠ "" then [E.value E.SF_CONTAINER_ID rec]
            else []) := by
    rw [GoMap.get_of_get? _ _ _ hnode]
    by_cases hct : E.MapStr E.SF_CONTAINER_ID rec ≠ ""
    · obtain ⟨mc, hmc, hcid⟩ := loop_sub_entry E rec _ _ Domain.container _ hS.containerID
        (fun _ => True) E.Fields hll hS.containerID.1 (fun _ _ _ _ _ _ => trivial)
        (fun _ _ => by simp [writesTo, hct]) _ d trivial hloop
      simp only [DataRecord.sub, Option.map_eq_some'] at hmc
      obtain ⟨cd, hcd, hcdm⟩ := hmc
      subst hcdm
      simp only [hcd, hcid, hct, if_true, ne_eq, not_false_eq_true]
    · have := loop_sub_none E rec _ _ Domain.container (fun _ => True) E.Fields
        (fun _ _ _ _ _ _ => trivial) (fun _ _ => by simpa [writesTo] using hct)
        DataRecord.new d trivial rfl hloop
      simp only [DataRecord.sub, Option.map_eq_none'] at this
      simp only [this, hct, if_false]
      rfl
  unfold TelemetryRecord.IDTuple
  simp only [hfr, hd, hnd, hpd, hcont, hType, hTs, GoMap.get_of_get? _ _ _ htid,
    GoMap.get_of_get? _ _ _ hcre]
  unfold typeCoordinates
  by_cases hfile : t = E.TyFFStr ∨ t = E.TyFEStr
  · obtain ⟨mf, hmf, hoid⟩ := loop_typed_entry E rec _ _ t hS.typePath hS.typeFirst hty
      Domain.file (Or.inl rfl) (fun b hb => by simp only [writesTo, hb, hfile, decide_True])
      _ hS.fileOID DataRecord.new d hloop
    simp only [DataRecord.sub, Option.map_eq_some'] at hmf
    obtain ⟨fd, hfd, hfdm⟩ := hmf
    subst hfdm
    simp only [hfile, if_true, hfd, GoMap.get_of_get? _ _ _ hoid]
  · simp only [hfile, if_false]
    by_cases hnet : t = E.TyNFStr
    · have hw : ∀ b : DataRecord, b.Type_ = t →
          writesTo E (decide (E.MapInt E.SF_PPROC_PID rec ≠ 0))
            (decide (E.MapStr E.SF_CONTAINER_ID rec ≠ "")) b Domain.net = true :=
        fun b hb => by simp only [writesTo, hb, hnet, decide_True]
      obtain ⟨m1, hm1, h1⟩ := loop_typed_entry E rec _ _ t hS.typePath hS.typeFirst hty
        Domain.net (Or.inr rfl) hw _ hS.netSIP DataRecord.new d hloop
      obtain ⟨m2, hm2, h2⟩ := loop_typed_entry E rec _ _ t hS.typePath hS.typeFirst hty
        Domain.net (Or.inr rfl) hw _ hS.netSPort DataRecord.new d hloop
      obtain ⟨m3, hm3, h3⟩ := loop_typed_entry E rec _ _ t hS.typePath hS.typeFirst hty
        Domain.net (Or.inr rfl) hw _ hS.netDIP DataRecord.new d hloop
      obtain ⟨m4, hm4, h4⟩ := loop_typed_entry E rec _ _ t hS.typePath hS.typeFirst hty
        Domain.net (Or.inr rfl) hw _ hS.netDPort DataRecord.new d hloop
      obtain ⟨m5, hm5, h5⟩ := loop_typed_entry E rec _ _ t hS.typePath hS.typeFirst hty
        Domain.net (Or.inr rfl) hw _ hS.netProto DataRecord.new d hloop
      rw [hm1] at hm2 hm3 hm4 hm5
      cases hm2; cases hm3; cases hm4; cases hm5
      simp only [DataRecord.sub, Option.map_eq_some'] at hm1
      obtain ⟨nt, hnt, hntm⟩ := hm1
      subst hntm
      simp only [hnet, if_true, hnt, GoMap.get_of_get? _ _ _ h1, GoMap.get_of_get? _ _ _ h2,
        GoMap.get_of_get? _ _ _ h3, GoMap.get_of_get? _ _ _ h4, GoMap.get_of_get? _ _ _ h5]
    · simp only [hnet, if_false, List.append_nil]

/-- C1 as amended: under an enumeration that lists each identity coordinate
path (as the one path of its attribute, not list-like) and lists the type
path before the file and network paths, for a record whose type mapper
gives a string and whose timestamp mapper gives an `int64`, `ID` computes on
the flat output a coordinate tuple `h` and on the structured output the same
tuple `h` when the record has a container identifier, so that both identity
keys are equal; without a container identifier the structured tuple is `h`
without its container coordinate. -/
theorem ID_parity (E : Engine) (rec : Record) (cfgF cfgS : Config) (f s : TelemetryRecord)
    (hF : cfgF.Flat = true) (hS : cfgS.Flat = false)
    (hf : extractTelemetryRecord E rec cfgF = Result.ok f)
    (hs : extractTelemetryRecord E rec cfgS = Result.ok s)
    (hE : IDSchema E) (t : String) (ts : Int)
    (hty : E.value E.SF_TYPE rec = Value.str t)
    (hts : E.value E.SF_TS rec = Value.int64 ts) :
    ∃ h, f.IDTuple E = Result.ok h ∧
      s.IDTuple E
        = Result.ok (if E.MapStr E.SF_CONTAINER_ID rec ≠ "" then h else h.eraseIdx 1) ∧
      (E.MapStr E.SF_CONTAINER_ID rec ≠ "" →
        f.ID E = s.ID E ∧ f.ID E = Result.ok (E.GetHashStr h)) := by
  have h1 := flat_IDTuple E rec cfgF f hF hf hE t hty
  have h2 := struct_IDTuple E rec cfgS s hS hs hE t ts hty hts
  refine ⟨_, h1, ?_, ?_⟩
  · rw [h2, hts]
    by_cases hct : E.MapStr E.SF_CONTAINER_ID rec ≠ ""
    · simp only [hct, if_true, ne_eq, not_false_eq_true]
      rfl
    · simp only [hct, if_false]
      rfl
  · intro hct
    unfold TelemetryRecord.ID
    rw [h1, h2, hts]
    simp only [hct, if_true, ne_eq, not_false_eq_true]
    exact ⟨rfl, rfl⟩

end exporter
namespace exporter

/-! ### The concrete engine -/

set_option maxRecDepth 8000 in
/-- The enumeration of `sysflow` has the identity coordinate paths in
place. -/
theorem sysflow_schema : IDSchema sysflow :=
  { typePath := by unfold AttrPath; decide
    tsPath := by unfold AttrPath; decide
    typeFirst := by unfold TypeFirst; decide
    nodeID := by unfold SubPath; decide
    containerID := by unfold SubPath; decide
    procTID := by unfold SubPath; decide
    procCreateTS := by unfold SubPath; decide
    fileOID := by unfold SubPath; decide
    netSIP := by unfold SubPath; decide
    netSPort := by unfold SubPath; decide
    netDIP := by unfold SubPath; decide
    netDPort := by unfold SubPath; decide
    netProto := by unfold SubPath; decide }

set_option maxRecDepth 8000 in
/-- C1 refuted: for a network-flow record of a process outside any
container, `ID` hands eleven coordinates to the hash function on the flat
output, the empty container id among them, and ten on the structured
output. -/
theorem ID_parity_counterexample :
    (sysflowOutput hostNetRecord flatConfig).IDTuple sysflow
      = Result.ok [Value.str "node-1", Value.str "", Value.int64 1600000000,
          Value.int64 4243, Value.int64 1599999999, Value.str "NF", Value.str "10.0.0.1",
          Value.int64 51234, Value.str "10.0.0.9", Value.int64 443, Value.int64 6] ∧
    (sysflowOutput hostNetRecord structConfig).IDTuple sysflow
      = Result.ok [Value.str "node-1", Value.int64 1600000000,
          Value.int64 4243, Value.int64 1599999999, Value.str "NF", Value.str "10.0.0.1",
          Value.int64 51234, Value.str "10.0.0.9", Value.int64 443, Value.int64 6] ∧
    extractTelemetryRecord sysflow hostNetRecord flatConfig
      = Result.ok (sysflowOutput hostNetRecord flatConfig) ∧
    extractTelemetryRecord sysflow hostNetRecord structConfig
      = Result.ok (sysflowOutput hostNetRecord structConfig) ∧
    (sysflowOutput hostNetRecord flatConfig).IDTuple sysflow
      ≠ (sysflowOutput hostNetRecord structConfig).IDTuple sysflow ∧
    (sysflowOutput hostNetRecord flatConfig).ID sysflow
      ≠ (sysflowOutput hostNetRecord structConfig).ID sysflow := by
  decide

set_option maxRecDepth 8000 in
/-- C1 as amended, on a network-flow record of a process in a container. -/
theorem ID_parity_witness :
    ∃ h, (sysflowOutput containerNetRecord flatConfig).IDTuple sysflow = Result.ok h ∧
      (sysflowOutput containerNetRecord structConfig).IDTuple sysflow
        = Result.ok (if sysflow.MapStr sysflow.SF_CONTAINER_ID containerNetRecord ≠ ""
            then h else h.eraseIdx 1) ∧
      (sysflow.MapStr sysflow.SF_CONTAINER_ID containerNetRecord ≠ "" →
        (sysflowOutput containerNetRecord flatConfig).ID sysflow
            = (sysflowOutput containerNetRecord structConfig).ID sysflow ∧
          (sysflowOutput containerNetRecord flatConfig).ID sysflow
            = Result.ok (sysflow.GetHashStr h)) :=
  ID_parity sysflow containerNetRecord flatConfig structConfig
    (sysflowOutput containerNetRecord flatConfig) (sysflowOutput containerNetRecord structConfig)
    rfl rfl (by decide) (by decide) sysflow_schema "NF" 1600000000 (by decide) (by decide)

set_option maxRecDepth 8000 in
/-- C8 on a record with a parent process: the parent-process sub-structure
has an entry for each of the two listed parent-process paths. -/
theorem extract_pproc_witness :
    ∃ d, (sysflowOutput hostNetRecord structConfig).DataRecord = some d ∧
      (sysflow.MapInt sysflow.SF_PPROC_PID hostNetRecord = 0 → d.PprocData = none) ∧
      (sysflow.MapInt sysflow.SF_PPROC_PID hostNetRecord ≠ 0 →
        (∀ k ∈ sysflow.Fields, ∀ b, subKey k = some (pproc, b) →
          ∃ pd, d.PprocData = some pd ∧ (GoMap.get? pd.Pproc b).isSome = true) ∧
        ((∃ k ∈ sysflow.Fields, ∃ b, subKey k = some (pproc, b)) → d.PprocData ≠ none)) :=
  extract_pproc sysflow hostNetRecord structConfig (sysflowOutput hostNetRecord structConfig)
    rfl (by decide)

set_option maxRecDepth 8000 in
/-- The two cases of C8 evaluated: a parent-process sub-structure with the
entries `pid` and `exe` for a record with a parent, none for a record
without. -/
theorem extract_pproc_evaluated :
    ((sysflowOutput hostNetRecord structConfig).DataRecord.bind (fun d => d.PprocData))
      = some { Pproc := [("pid", Value.int64 4000), ("exe", Value.str "/bin/bash")] } ∧
    ((sysflowOutput orphanFileRecord structConfig).DataRecord.bind (fun d => d.PprocData))
      = none ∧
    extractTelemetryRecord sysflow orphanFileRecord structConfig
      = Result.ok (sysflowOutput orphanFileRecord structConfig) := by
  decide

set_option maxRecDepth 8000 in
/-- C9 on a file-flow record whose network fields are filled: no network
sub-structure. -/
theorem extract_no_net_witness :
    sysflow.value "sf.net.sip" orphanFileRecord = Value.str "10.0.0.1" ∧
    ∃ d, (sysflowOutput orphanFileRecord structConfig).DataRecord = some d ∧
      d.NetData = none :=
  ⟨by decide,
    extract_no_net sysflow orphanFileRecord structConfig
      (sysflowOutput orphanFileRecord structConfig) rfl (by decide) (by decide) (by decide)⟩

set_option maxRecDepth 8000 in
/-- C10 on the source-ip path: the flat output holds `10.0.0.1` under
`sf.net.sip` and the structured output holds it under `sip` of the network
sub-structure. -/
theorem extract_net_entry_witness :
    (∃ d nd fr v, (sysflowOutput hostNetRecord structConfig).DataRecord = some d ∧
      d.NetData = some nd ∧ (sysflowOutput hostNetRecord flatConfig).FlatRecord = some fr ∧
      GoMap.get? fr.Data "sf.net.sip" = some v ∧
      GoMap.get? nd.Net (sysflow.LastPart "sf.net.sip") = some v) ∧
    sysflow.LastPart "sf.net.sip" = "sip" ∧
    ((sysflowOutput hostNetRecord flatConfig).FlatRecord.bind
      (fun fr => GoMap.get? fr.Data "sf.net.sip")) = some (Value.str "10.0.0.1") ∧
    (((sysflowOutput hostNetRecord structConfig).DataRecord.bind (fun d => d.NetData)).bind
      (fun nd => GoMap.get? nd.Net "sip")) = some (Value.str "10.0.0.1") :=
  ⟨extract_net_entry sysflow hostNetRecord flatConfig structConfig
      (sysflowOutput hostNetRecord flatConfig) (sysflowOutput hostNetRecord structConfig)
      rfl rfl (by decide) (by decide) sysflow_schema.typePath sysflow_schema.typeFirst
      (by decide) "sf.net.sip" sysflow_schema.netSIP,
    by decide, by decide, by decide⟩

end exporter

/-! ## `strings.Split` -/

namespace strings

theorem splitAux_ne_nil (sep : List Char) (s : List Char) :
    ∀ (skip : Nat) (cur : List Char), splitAux sep s skip cur ≠ [] := by
  induction s with
  | nil => intro skip cur; simp [splitAux]
  | cons c cs ih =>
    intro skip cur
    cases skip with
    | zero =>
      simp only [splitAux]
      split
      · exact List.cons_ne_nil _ _
      · exact ih 0 _
    | succ n =>
      simp only [splitAux]
      exact ih n cur

theorem intercalate_cons_of_ne_nil (sep x : List Char) (l : List (List Char)) (hl : l ≠ []) :
    List.intercalate sep (x :: l) = x ++ sep ++ List.intercalate sep l := by
  cases l with
  | nil => exact absurd rfl hl
  | cons y ys => simp [List.intercalate, List.intersperse]

/-- The pieces that the scanner returns, joined by the separator, are the
text that was still to be scanned after the token being read. -/
theorem splitAux_intercalate (sep : List Char) (hsep : sep ≠ []) (s : List Char) :
    ∀ (skip : Nat) (cur : List Char), skip ≤ s.length →
      List.intercalate sep (splitAux sep s skip cur) = cur.reverse ++ s.drop skip := by
  induction s with
  | nil =>
    intro skip cur h
    have : skip = 0 := Nat.le_zero.mp h
    subst this
    simp [splitAux, List.intercalate, List.intersperse]
  | cons c cs ih =>
    intro skip cur h
    cases skip with
    | succ n =>
      simp only [splitAux, List.drop_succ_cons]
      exact ih n cur (Nat.le_of_succ_le_succ h)
    | zero =>
      simp only [splitAux, List.drop_zero]
      by_cases hp : sep.isPrefixOf (c :: cs) = true
      · simp only [hp, if_true]
        rw [intercalate_cons_of_ne_nil _ _ _ (splitAux_ne_nil sep cs _ _)]
        obtain ⟨rest, hrest⟩ := List.isPrefixOf_iff_prefix.mp hp
        cases sep with
        | nil => exact absurd rfl hsep
        | cons a sep' =>
          simp only [List.cons_append, List.cons.injEq] at hrest
          obtain ⟨hac, hcs⟩ := hrest
          have hle : (a :: sep').length - 1 ≤ cs.length := by
            rw [← hcs]
            simp
          rw [ih _ [] hle]
          simp only [List.length_cons, Nat.add_sub_cancel, List.reverse_nil, List.nil_append]
          rw [← hcs, List.drop_left, hac]
          simp
      · simp only [hp, Bool.false_eq_true, if_false]
        rw [ih 0 (c :: cur) (Nat.zero_le _)]
        simp

/-- The pieces of `strings.Split`, joined by the separator, give the string
back. -/
theorem Split_intercalate (s sep : String) :
    List.intercalate sep.data ((Split s sep).map String.data) = s.data := by
  unfold Split
  by_cases h : sep.data.isEmpty = true
  · simp only [h, if_true, List.map_map]
    have hsep : sep.data = [] := List.isEmpty_iff.mp h
    rw [hsep]
    have : ∀ l : List Char,
        List.intercalate [] (l.map (String.data ∘ fun c => String.mk [c])) = l := by
      intro l
      induction l with
      | nil => rfl
      | cons c cs ih =>
        cases cs with
        | nil => simp [List.intercalate, List.intersperse]
        | cons d ds =>
          simp only [List.map_cons] at ih ⊢
          rw [intercalate_cons_of_ne_nil _ _ _ (List.cons_ne_nil _ _), ih]
          simp
    exact this s.data
  · simp only [h, Bool.false_eq_true, if_false, List.map_map]
    have : (String.data ∘ String.mk) = id := by
      funext l
      rfl
    rw [this, List.map_id]
    have := splitAux_intercalate sep.data (fun hd => h (by rw [hd]; rfl)) s.data 0 []
      (Nat.zero_le _)
    simpa using this

end strings

/-! ## Hashes, policies and list-like values -/

namespace exporter

/-- C11 refuted: a record whose hash set has a SHA-256 digest and an empty
MD5 digest gets no hash set attached. -/
theorem extract_hashes_counterexample :
    sha256Record.hashes.SHA256 ≠ "" ∧
    (extractTelemetryRecord sysflow sha256Record structConfig).isErr = false ∧
    (extractTelemetryRecord sysflow sha256Record structConfig).isPanic = false ∧
    ((extractTelemetryRecord sysflow sha256Record structConfig).getD
      TelemetryRecord.empty).Hashes = none ∧
    ((extractTelemetryRecord sysflow sha256Record flatConfig).getD
      TelemetryRecord.empty).Hashes = none := by
  decide

/-- C11 as amended: `extractTelemetryRecord` attaches the hash set of the
context to the output exactly when the MD5 digest of the hash set is not
empty; the other digests are not looked at. -/
theorem extract_hashes (E : Engine) (rec : Record) (cfg : Config) (out : TelemetryRecord)
    (h : extractTelemetryRecord E rec cfg = Result.ok out) :
    (out.Hashes = some rec.hashes ↔ rec.hashes.MD5 ≠ "") ∧
    (out.Hashes = none ↔ rec.hashes.MD5 = "") := by
  unfold extractTelemetryRecord at h
  have key : ∀ r1 : TelemetryRecord, r1.Hashes = none →
      Result.ok (α := TelemetryRecord)
        { (if rec.hashes.MD5 ≠ "" then { r1 with Hashes := some rec.hashes } else r1) with
          Policies := extractPolicySet rec.rules } = Result.ok out →
      (out.Hashes = some rec.hashes ↔ rec.hashes.MD5 ≠ "") ∧
        (out.Hashes = none ↔ rec.hashes.MD5 = "") := by
    intro r1 hr1h h
    by_cases hmd5 : rec.hashes.MD5 = ""
    · simp only [hmd5, ne_eq, not_true_eq_false, if_false, Result.ok.injEq] at h
      subst h
      simp [hr1h, hmd5]
    · simp only [ne_eq, hmd5, not_false_eq_true, if_true, Result.ok.injEq] at h
      subst h
      simp [hmd5]
  by_cases hflat : cfg.Flat = true
  · simp only [hflat, if_true] at h
    obtain ⟨r1, hr1, h⟩ := bind_eq_ok _ _ _ h
    obtain ⟨x, _, hx⟩ := bind_eq_ok _ _ _ hr1
    cases hx
    exact key _ rfl h
  · simp only [hflat, Bool.false_eq_true, if_false] at h
    obtain ⟨r1, hr1, h⟩ := bind_eq_ok _ _ _ h
    obtain ⟨x, _, hx⟩ := bind_eq_ok _ _ _ hr1
    cases hx
    exact key _ rfl h

set_option maxRecDepth 8000 in
/-- C11 as amended, on a record with an MD5 digest. -/
theorem extract_hashes_witness :
    ((sysflowOutput md5Record structConfig).Hashes = some md5Record.hashes
        ↔ md5Record.hashes.MD5 ≠ "") ∧
    ((sysflowOutput md5Record structConfig).Hashes = none ↔ md5Record.hashes.MD5 = "") :=
  extract_hashes sysflow md5Record structConfig (sysflowOutput md5Record structConfig)
    (by decide)

/-- C15: `extractValue` gives the pieces of `v` split on the list separator
when `v` is a string and `k` is one of the eight list-like paths, and `v`
itself in every other case; the pieces of a split are in order: joined by
the separator they give the string back. -/
theorem extractValue_spec (E : Engine) (k : String) (v : Value) :
    (extractValue E k v =
      match v with
      | Value.str s =>
        if k ∈ listPaths E then Value.strs (strings.Split s E.LISTSEP) else Value.str s
      | _ => v) ∧
    ∀ s : String,
      List.intercalate E.LISTSEP.data ((strings.Split s E.LISTSEP).map String.data)
        = s.data := by
  refine ⟨?_, fun s => strings.Split_intercalate s E.LISTSEP⟩
  cases v with
  | str s =>
    by_cases hk : k ∈ listPaths E
    · have : array E k = true := by
        simp only [listPaths, List.mem_cons, List.mem_singleton, List.not_mem_nil,
          or_false] at hk
        simp only [array, Bool.or_eq_true, decide_eq_true_eq]
        tauto
      simp [extractValue, this, hk]
    · have : array E k = false := by
        simp only [listPaths, List.mem_cons, List.mem_singleton, List.not_mem_nil,
          or_false] at hk
        simp only [array, Bool.or_eq_false_iff, decide_eq_false_iff_not]
        tauto
      simp [extractValue, this, hk]
  | nil => rfl
  | int64 i => rfl
  | strs l => rfl
  | other r => rfl

set_option maxRecDepth 8000 in
/-- The values of `extractValue` on the operation flags of a record, on its
source ip and on its return value. -/
theorem extractValue_evaluated :
    extractValue sysflow "sf.opflags" (Value.str "CONNECT,RECV")
      = Value.strs ["CONNECT", "RECV"] ∧
    extractValue sysflow "sf.net.sip" (Value.str "10.0.0.1,10.0.0.2")
      = Value.str "10.0.0.1,10.0.0.2" ∧
    extractValue sysflow "sf.opflags" (Value.int64 3) = Value.int64 3 ∧
    extractValue sysflow "sf.net.port" (Value.str "") = Value.strs [""] := by
  decide

theorem foldl_append_singleton {α β : Type} (f : α → β) (l : List α) (init : List β) :
    l.foldl (fun acc x => acc ++ [f x]) init = init ++ l.map f := by
  induction l generalizing init with
  | nil => simp
  | cons a l ih => simp [List.foldl_cons, ih]

/-- Go `extracTags` appends, tag by tag, the strings each tag contributes. -/
theorem extracTags_eq (tags : List Value) :
    extracTags tags = (tags.map tagStrings).flatten := by
  unfold extracTags
  have key : ∀ (l : List Value) (init : List String),
      l.foldl (fun s v =>
        match v with
        | Value.strs l => s ++ l
        | _ => s ++ [sprintV v]) init = init ++ (l.map tagStrings).flatten := by
    intro l
    induction l with
    | nil => intro init; simp
    | cons a l ih =>
      intro init
      rw [List.foldl_cons, ih]
      cases a <;> simp [tagStrings]
  simpa using key tags []

/-- C16: `extractPolicySet` returns one policy per rule, in rule order, with
the name, description and priority of the rule and, as tags, the in-order
concatenation of the elements of each list-valued tag and the rendering of
each scalar tag; no rule gives the empty list. -/
theorem extractPolicySet_spec (rules : List Rule) :
    extractPolicySet rules =
        rules.map (fun r =>
          { ID := r.Name, Desc := r.Desc, Priority := r.Priority,
            Tags := (r.Tags.map tagStrings).flatten }) ∧
      (extractPolicySet rules).length = rules.length ∧
      extractPolicySet [] = [] := by
  have h : extractPolicySet rules =
      rules.map (fun r =>
        { ID := r.Name, Desc := r.Desc, Priority := r.Priority,
          Tags := (r.Tags.map tagStrings).flatten }) := by
    unfold extractPolicySet
    rw [foldl_append_singleton]
    simp [extracTags_eq]
  refine ⟨h, ?_, rfl⟩
  rw [h, List.length_map]

/-- The policies of `demoRules`. -/
theorem extractPolicySet_evaluated :
    extractPolicySet demoRules =
      [{ ID := "Shell in container", Desc := "a shell was spawned", Priority := 2,
         Tags := ["mitre:T1059", "container", "shell", "7"] },
       { ID := "Outbound", Desc := "outbound connection", Priority := 0, Tags := [] }] := by
  decide

end exporter

/-! ## Paths outside the schema -/

namespace exporter

/-- A loop whose steps never return an error never returns an error. -/
theorem foldlR_ne_err {α β : Type} (f : β → α → Result β)
    (hf : ∀ b a msg, f b a ≠ Result.err msg) (l : List α) :
    ∀ b msg, foldlR f b l ≠ Result.err msg := by
  induction l with
  | nil => intro b msg h; exact Result.noConfusion h
  | cons a l ih =>
    intro b msg h
    simp only [foldlR] at h
    cases hfa : f b a with
    | ok b1 => rw [hfa] at h; exact ih b1 msg h
    | err m => exact hf b a m hfa
    | panic m => rw [hfa] at h; exact Result.noConfusion h

theorem structStep_ne_err (E : Engine) (rec : Record) (pe ce : Bool) (r : DataRecord)
    (k : String) (msg : String) : structStep E rec pe ce r k ≠ Result.err msg := by
  intro h
  unfold structStep at h
  cases hm : E.Mappers k with
  | none => simp [hm] at h
  | some m =>
    simp only [hm] at h
    split at h
    · split at h
      · simp only [DataRecord.SetString] at h
        split at h <;> exact Result.noConfusion h
      · simp only [DataRecord.SetInt] at h
        split_ifs at h
      · simp only [DataRecord.Set] at h
        split at h <;> exact Result.noConfusion h
      · exact Result.noConfusion h
    · split_ifs at h
    · exact Result.noConfusion h

theorem flatStep_ne_err (E : Engine) (rec : Record) (data : GoMap Value)
    (k : String) (msg : String) : flatStep E rec data k ≠ Result.err msg := by
  intro h
  unfold flatStep at h
  cases hm : E.Mappers k with
  | none => simp [hm] at h
  | some m => simp [hm] at h

theorem bind_ne_err {α β : Type} (r : Result α) (f : α → Result β)
    (hr : ∀ msg, r ≠ Result.err msg) (hf : ∀ x msg, f x ≠ Result.err msg) :
    ∀ msg, r.bind f ≠ Result.err msg := by
  intro msg h
  cases r with
  | ok x => exact hf x msg h
  | err m => exact hr m rfl
  | panic m => exact Result.noConfusion h

/-- `extractTelemetryRecord` has no error result: it returns a record or
panics. -/
theorem extract_ne_err (E : Engine) (rec : Record) (cfg : Config) (msg : String) :
    extractTelemetryRecord E rec cfg ≠ Result.err msg := by
  unfold extractTelemetryRecord
  apply bind_ne_err
  · by_cases hflat : cfg.Flat = true
    · simp only [hflat, if_true]
      apply bind_ne_err
      · exact foldlR_ne_err _ (flatStep_ne_err E rec) _ _
      · intro x m h; exact Result.noConfusion h
    · simp only [hflat, Bool.false_eq_true, if_false]
      apply bind_ne_err
      · exact foldlR_ne_err _ (structStep_ne_err E rec _ _) _ _
      · intro x m h; exact Result.noConfusion h
  · intro x m h
    exact Result.noConfusion h

set_option maxRecDepth 8000 in
/-- C13 refuted: a path of an unknown domain is left out of the structured
output without any report, the output being the one of the enumeration
without that path; a two-segment path naming no attribute and a string
under the attribute `Ts` make the function panic. -/
theorem extract_unknown_counterexample :
    subKey "sf.k8s.pod" = some ("k8s", "pod") ∧
    sysflow.value "sf.k8s.pod" oddRecord = Value.nil ∧
    (engineOver ["sf.type", "sf.k8s.pod"]).value "sf.k8s.pod" oddRecord = Value.str "web-1" ∧
    extractTelemetryRecord (engineOver ["sf.type", "sf.k8s.pod"]) oddRecord structConfig
      = extractTelemetryRecord (engineOver ["sf.type"]) oddRecord structConfig ∧
    (extractTelemetryRecord (engineOver ["sf.type", "sf.k8s.pod"]) oddRecord
      structConfig).isPanic = false ∧
    (extractTelemetryRecord (engineOver ["sf.type", "sf.k8s.pod"]) oddRecord
      structConfig).isErr = false ∧
    (extractTelemetryRecord (engineOver ["sf.type", "sf.tid"]) oddRecord
      structConfig).isPanic = true ∧
    (extractTelemetryRecord (engineOver ["sf.type", "sf.ts"]) oddRecord
      structConfig).isPanic = true := by
  decide

/-- C13 as amended: `extractTelemetryRecord` never returns an error, and
the body of its structured loop leaves the output record as it is, without
any report, on a path that is not a two-segment path and selects none of
the seven sub-structures, and on a two-segment path whose value is neither
a string, an `int64` nor a `[]string`. -/
theorem structStep_skips (E : Engine) (rec : Record) (pe ce : Bool) (r : DataRecord)
    (k : String) (m : Record → Value) (hm : E.Mappers k = some m) :
    (∀ (cfg : Config) (msg : String), extractTelemetryRecord E rec cfg ≠ Result.err msg) ∧
    (attrKey k = none → (∀ D : Domain, (subKey k).map Prod.fst ≠ some D.name) →
      structStep E rec pe ce r k = Result.ok r) ∧
    ((∀ s, extractValue E k (m rec) ≠ Value.str s) →
      (∀ i, extractValue E k (m rec) ≠ Value.int64 i) →
      (∀ l, extractValue E k (m rec) ≠ Value.strs l) →
      (attrKey k).isSome = true → structStep E rec pe ce r k = Result.ok r) := by
  refine ⟨fun cfg msg => extract_ne_err E rec cfg msg, ?_, ?_⟩
  · intro h2 h3
    unfold structStep
    simp only [hm]
    unfold attrKey at h2
    unfold subKey at h3
    split
    · rename_i a kc1 hs
      simp [hs] at h2
    · rename_i a kc1 kc2 hs
      simp only [hs, Option.map_some'] at h3
      have hp := h3 Domain.proc
      have hpp := h3 Domain.pproc
      have hn := h3 Domain.net
      have hf := h3 Domain.file
      have hfl := h3 Domain.flow
      have hc := h3 Domain.container
      have hno := h3 Domain.node
      simp only [Domain.name, ne_eq, Option.some.injEq] at hp hpp hn hf hfl hc hno
      simp only [hp, hpp, hn, hf, hfl, hc, hno, if_false]
    · rfl
  · intro hs hi hl h2
    unfold attrKey at h2
    split at h2
    · rename_i a kc1 hsp
      cases hv : extractValue E k (m rec) with
      | str s => exact absurd hv (hs s)
      | int64 i => exact absurd hv (hi i)
      | strs l => exact absurd hv (hl l)
      | nil =>
        unfold structStep
        simp only [hm, hsp, hv]
      | other x =>
        unfold structStep
        simp only [hm, hsp, hv]
    · exact absurd h2 (by simp)

set_option maxRecDepth 8000 in
/-- C13 as amended, on the pod path and on a boolean return value. -/
theorem structStep_skips_witness :
    structStep (engineOver ["sf.type", "sf.k8s.pod"]) oddRecord true true DataRecord.new
      "sf.k8s.pod" = Result.ok DataRecord.new ∧
    structStep (engineOver ["sf.ret"]) oddRecord true true DataRecord.new "sf.ret"
      = Result.ok DataRecord.new := by
  have hv : extractValue (engineOver ["sf.ret"]) "sf.ret" (GoMap.get oddRecord.attrs "sf.ret")
      = Value.other "true" := by decide
  exact ⟨(structStep_skips (engineOver ["sf.type", "sf.k8s.pod"]) oddRecord true true
      DataRecord.new "sf.k8s.pod" (fun r => GoMap.get r.attrs "sf.k8s.pod") rfl).2.1
      (by decide) (by intro D; cases D <;> decide),
   (structStep_skips (engineOver ["sf.ret"]) oddRecord true true
      DataRecord.new "sf.ret" (fun r => GoMap.get r.attrs "sf.ret") rfl).2.2
      (by intro s; rw [hv]; exact Value.noConfusion)
      (by intro i; rw [hv]; exact Value.noConfusion)
      (by intro l; rw [hv]; exact Value.noConfusion) (by decide)⟩

end exporter

/-! ## Sub-structures that `ID` reads -/

namespace exporter

/-- After a loop that passes a path of a sub-structure being written, the
sub-structure is not nil. -/
theorem loop_sub_some (E : Engine) (rec : Record) (pe ce : Bool) (D : Domain) (k0 : String)
    (hk : (subKey k0).map Prod.fst = some D.name) (P : DataRecord → Prop) (l : List String)
    (hk0 : k0 ∈ l)
    (hP : ∀ b a b', a ∈ l → P b → structStep E rec pe ce b a = Result.ok b' → P b')
    (hw : ∀ b, P b → writesTo E pe ce b D = true) :
    ∀ d d', P d → foldlR (structStep E rec pe ce) d l = Result.ok d' →
      (d'.sub D).isSome = true := by
  obtain ⟨⟨dn, b⟩, hkb, hdn⟩ := Option.map_eq_some'.mp hk
  simp only at hdn
  subst hdn
  refine foldlR_establish (structStep E rec pe ce) P (fun x => (x.sub D).isSome = true)
    k0 l hk0 hP ?_ ?_
  · intro x x' hx hstep
    rw [structStep_write E rec pe ce x x' k0 hstep D b hkb (hw x hx)]
    rfl
  · intro x a x' _ _ hq hstep
    rcases structStep_sub E rec pe ce x x' a hstep D with h | ⟨_, _, _, hsub⟩
    · rw [h]; exact hq
    · rw [hsub]; rfl

/-- C19: when the enumeration lists every path of the attribute `Type`
before every file and network path and lists at least one node path, one
process path, one file path and one network path, the structured output has
a node and a process sub-structure, a file sub-structure whenever its type
is a file-flow or file-event type and a network sub-structure whenever its
type is the network-flow type, so that `ID` reads no nil sub-structure and
does not panic. -/
theorem ID_reads_present (E : Engine) (rec : Record) (cfg : Config) (s : TelemetryRecord)
    (hflat : cfg.Flat = false) (hs : extractTelemetryRecord E rec cfg = Result.ok s)
    (pre post : List String) (hsplit : E.Fields = pre ++ post)
    (hpre : ∀ k ∈ pre,
      (subKey k).map Prod.fst ≠ some file ∧ (subKey k).map Prod.fst ≠ some net)
    (hpost : ∀ k ∈ post, attrKey k ≠ some "Type")
    (hnode : ∃ k ∈ E.Fields, (subKey k).map Prod.fst = some node)
    (hproc : ∃ k ∈ E.Fields, (subKey k).map Prod.fst = some proc)
    (hfile : ∃ k ∈ E.Fields, (subKey k).map Prod.fst = some file)
    (hnet : ∃ k ∈ E.Fields, (subKey k).map Prod.fst = some net) :
    ∃ d, s.DataRecord = some d ∧ d.NodeData ≠ none ∧ d.ProcData ≠ none ∧
      (d.Type_ = E.TyFFStr ∨ d.Type_ = E.TyFEStr → d.FileData ≠ none) ∧
      (d.Type_ = E.TyNFStr → d.NetData ≠ none) ∧
      (s.IDTuple E).isPanic = false := by
  obtain ⟨d, hd, hfr, hloop⟩ := extract_struct E rec cfg s hflat hs
  -- node and process paths are written wherever they stand
  obtain ⟨kn, hkn, hkn'⟩ := hnode
  have hN := loop_sub_some E rec _ _ Domain.node kn hkn' (fun _ => True) E.Fields hkn
    (fun _ _ _ _ _ _ => trivial) (fun _ _ => rfl) _ d trivial hloop
  obtain ⟨kp, hkp, hkp'⟩ := hproc
  have hP := loop_sub_some E rec _ _ Domain.proc kp hkp' (fun _ => True) E.Fields hkp
    (fun _ _ _ _ _ _ => trivial) (fun _ _ => rfl) _ d trivial hloop
  -- the type is settled when the loop reaches the file and network paths
  have hl := hloop
  rw [hsplit, foldlR_append] at hl
  obtain ⟨d1, _, hl2⟩ := bind_eq_ok _ _ _ hl
  have hkeep : ∀ b a b', a ∈ post → b.Type_ = d1.Type_ →
      structStep E rec (decide (E.MapInt E.SF_PPROC_PID rec ≠ 0))
        (decide (E.MapStr E.SF_CONTAINER_ID rec ≠ "")) b a = Result.ok b' →
      b'.Type_ = d1.Type_ := by
    intro b a b' ha hb hstep
    rcases structStep_Type E rec _ _ b b' a hstep with h | ⟨hk, _⟩
    · rw [h, hb]
    · exact absurd hk (hpost a ha)
  have hT : d.Type_ = d1.Type_ :=
    foldlR_invariant _ (fun x => x.Type_ = d1.Type_) post hkeep d1 d rfl hl2
  have inPost : ∀ k, k ∈ E.Fields →
      ((subKey k).map Prod.fst = some file ∨ (subKey k).map Prod.fst = some net) →
      k ∈ post := by
    intro k hk hfn
    rw [hsplit] at hk
    rcases List.mem_append.mp hk with h | h
    · rcases hfn with h' | h'
      · exact absurd h' (hpre k h).1
      · exact absurd h' (hpre k h).2
    · exact h
  obtain ⟨kf, hkf, hkf'⟩ := hfile
  have hF : d.Type_ = E.TyFFStr ∨ d.Type_ = E.TyFEStr → (d.sub Domain.file).isSome = true := by
    intro hty
    exact loop_sub_some E rec _ _ Domain.file kf hkf' (fun x => x.Type_ = d1.Type_) post
      (inPost kf hkf (Or.inl hkf')) hkeep
      (fun b hb => by
        have : b.Type_ = d.Type_ := hb.trans hT.symm
        simp only [writesTo, this, decide_eq_true_eq]
        exact hty) d1 d rfl hl2
  obtain ⟨kt, hkt, hkt'⟩ := hnet
  have hNt : d.Type_ = E.TyNFStr → (d.sub Domain.net).isSome = true := by
    intro hty
    exact loop_sub_some E rec _ _ Domain.net kt hkt' (fun x => x.Type_ = d1.Type_) post
      (inPost kt hkt (Or.inr hkt')) hkeep
      (fun b hb => by
        have : b.Type_ = d.Type_ := hb.trans hT.symm
        simp only [writesTo, this, decide_eq_true_eq]
        exact hty) d1 d rfl hl2
  simp only [DataRecord.sub, Option.isSome_map'] at hN hP hF hNt
  have hN' : d.NodeData ≠ none := by
    intro h; rw [h] at hN; exact Bool.noConfusion hN
  have hP' : d.ProcData ≠ none := by
    intro h; rw [h] at hP; exact Bool.noConfusion hP
  have hF' : d.Type_ = E.TyFFStr ∨ d.Type_ = E.TyFEStr → d.FileData ≠ none := by
    intro hty h
    have := hF hty
    rw [h] at this
    exact Bool.noConfusion this
  have hNt' : d.Type_ = E.TyNFStr → d.NetData ≠ none := by
    intro hty h
    have := hNt hty
    rw [h] at this
    exact Bool.noConfusion this
  refine ⟨d, hd, hN', hP', hF', hNt', ?_⟩
  unfold TelemetryRecord.IDTuple
  simp only [hfr, hd]
  obtain ⟨nd, hnd⟩ := Option.ne_none_iff_exists'.mp hN'
  obtain ⟨pd, hpd⟩ := Option.ne_none_iff_exists'.mp hP'
  simp only [hnd, hpd]
  by_cases h1 : d.Type_ = E.TyFFStr ∨ d.Type_ = E.TyFEStr
  · obtain ⟨fd, hfd⟩ := Option.ne_none_iff_exists'.mp (hF' h1)
    simp only [h1, if_true, hfd]
    rfl
  · simp only [h1, if_false]
    by_cases h2 : d.Type_ = E.TyNFStr
    · obtain ⟨nt, hnt⟩ := Option.ne_none_iff_exists'.mp (hNt' h2)
      simp only [h2, if_true, hnt]
      rfl
    · simp only [h2, if_false]
      rfl

set_option maxRecDepth 8000 in
/-- C19 on the concrete engine, whose enumeration lists its five
two-segment paths first, for a file-flow record. -/
theorem ID_reads_present_witness :
    ∃ d, (sysflowOutput orphanFileRecord structConfig).DataRecord = some d ∧
      d.NodeData ≠ none ∧ d.ProcData ≠ none ∧
      (d.Type_ = sysflow.TyFFStr ∨ d.Type_ = sysflow.TyFEStr → d.FileData ≠ none) ∧
      (d.Type_ = sysflow.TyNFStr → d.NetData ≠ none) ∧
      ((sysflowOutput orphanFileRecord structConfig).IDTuple sysflow).isPanic = false :=
  ID_reads_present sysflow orphanFileRecord structConfig
    (sysflowOutput orphanFileRecord structConfig) rfl (by decide)
    (sysflowFields.take 5) (sysflowFields.drop 5) (by decide) (by decide) (by decide)
    ⟨"sf.node.id", by decide, by decide⟩ ⟨"sf.proc.tid", by decide, by decide⟩
    ⟨"sf.file.oid", by decide, by decide⟩ ⟨"sf.net.sip", by decide, by decide⟩

set_option maxRecDepth 8000 in
/-- With the type path listed after the file paths the file sub-structure
of a file-flow record stays nil and `ID` panics. -/
theorem ID_reads_absent_when_type_last :
    (extractTelemetryRecord (engineOver ["sf.node.id", "sf.proc.tid", "sf.file.oid", "sf.type"])
      orphanFileRecord structConfig).isPanic = false ∧
    (((extractTelemetryRecord
        (engineOver ["sf.node.id", "sf.proc.tid", "sf.file.oid", "sf.type"])
        orphanFileRecord structConfig).getD TelemetryRecord.empty).IDTuple
      (engineOver ["sf.node.id", "sf.proc.tid", "sf.file.oid", "sf.type"])).isPanic = true := by
  decide

end exporter

/-! ## The receive loop and the sinks -/

namespace exporter

/-- The receive step keeps the loop invariant, on the buffering branch and
on the flush-and-reset branch. -/
theorem receive_Inv {Rec : Type} (s : Exporter Rec) (fc : Rec) (h : s.Inv)
    (hlen : s.recs.length + 1 < 9223372036854775808) :
    (s.receive fc).Inv ∧ (s.receive fc).EventBuffer = s.EventBuffer ∧
      (wrapInt64 (s.counter + 1) > s.EventBuffer →
        (s.receive fc).recs = [] ∧ (s.receive fc).counter = 0) ∧
      (¬ wrapInt64 (s.counter + 1) > s.EventBuffer →
        (s.receive fc).recs = s.recs ++ [fc] ∧ (s.receive fc).counter = s.counter + 1) := by
  obtain ⟨hc, hle⟩ := h
  have hw : wrapInt64 (s.counter + 1) = s.counter + 1 :=
    wrapInt64_of_range _ (by omega) (by omega)
  unfold Exporter.Inv Exporter.receive Exporter.process
  by_cases hgt : s.counter + 1 > s.EventBuffer
  · simp only [hw, hgt, if_true, List.length_nil, Nat.cast_zero, true_and, not_true_eq_false,
      false_implies, and_true, implies_true]
    omega
  · simp only [hw, hgt, if_false, List.length_append, List.length_singleton, Nat.cast_add,
      Nat.cast_one, false_implies, not_false_eq_true, true_implies, and_self, and_true,
      true_and]
    omega

/-- C18: with a threshold `T ≥ 0` the state of `Exporter.Process` satisfies
`counter = len(recs)` and `counter ≤ T` initially, the buffering step and
the flush-and-reset step keep it, and so it holds each time the loop is
about to receive, that is after every prefix of the input. -/
theorem Process_invariant {Rec : Type} (T : Int) (input : List Rec) (hT : 0 ≤ T)
    (hn : input.length < 9223372036854775808) :
    (NewExporter Rec T).Inv ∧
    (∀ (s : Exporter Rec) (fc : Rec), s.Inv → s.recs.length + 1 < 9223372036854775808 →
      (s.receive fc).Inv) ∧
    (∀ i : Nat, ((input.take i).foldl Exporter.receive (NewExporter Rec T)).Inv) := by
  refine ⟨⟨rfl, hT⟩, fun s fc h hlen => (receive_Inv s fc h hlen).1, ?_⟩
  intro i
  obtain ⟨t, rfl⟩ := Int.eq_ofNat_of_zero_le hT
  have hlen : (input.take i).length ≤ input.length := by
    rw [List.length_take]; exact Nat.min_le_right _ _
  have h := foldl_receive_counts t (input.take i) (NewExporter Rec (t : Int)) rfl rfl
    (Nat.zero_le _) (by simp only [NewExporter, List.length_nil, Nat.zero_add]; omega)
    (by simp [NewExporter])
  obtain ⟨h1, h2, h3, _, _⟩ := h
  refine ⟨h2, ?_⟩
  rw [h2, h1, h3]
  have : (0 + (input.take i).length) % (t + 1) < t + 1 := Nat.mod_lt _ (Nat.succ_pos t)
  simp only [NewExporter, List.length_nil] at this ⊢
  omega

/-- C18 at threshold 2 on five records. -/
theorem Process_invariant_witness :
    (NewExporter Nat 2).Inv ∧
    (∀ (s : Exporter Nat) (fc : Nat), s.Inv → s.recs.length + 1 < 9223372036854775808 →
      (s.receive fc).Inv) ∧
    (∀ i : Nat, (([1, 2, 3, 4, 5].take i).foldl Exporter.receive (NewExporter Nat 2)).Inv) :=
  Process_invariant (2 : Int) [1, 2, 3, 4, 5] (by decide) (by decide)

/-- The events that `CreateTelemetryRecords` returns are the outputs of
`extractTelemetryRecord` on the records, one per record, in order. -/
theorem CreateTelemetryRecords_spec (E : Engine) (config : Config) (occs : List Record)
    (events : List Event) (h : CreateTelemetryRecords E occs config = Result.ok events) :
    List.Forall₂ (fun o e => ∃ r, extractTelemetryRecord E o config = Result.ok r ∧
      e = Event.telemetry r) occs events := by
  unfold CreateTelemetryRecords at h
  have key : ∀ (l : List Record) (init out : List Event),
      foldlR (fun recs o =>
        (extractTelemetryRecord E o config).bind
          (fun r => Result.ok (recs ++ [Event.telemetry r]))) init l = Result.ok out →
      ∃ tl, out = init ++ tl ∧
        List.Forall₂ (fun o e => ∃ r, extractTelemetryRecord E o config = Result.ok r ∧
          e = Event.telemetry r) l tl := by
    intro l
    induction l with
    | nil =>
      intro init out h
      simp only [foldlR, Result.ok.injEq] at h
      exact ⟨[], by simp [h], List.Forall₂.nil⟩
    | cons o l ih =>
      intro init out h
      simp only [foldlR] at h
      obtain ⟨b1, hb1, h⟩ := bind_eq_ok _ _ _ h
      obtain ⟨r, hr, hb1'⟩ := bind_eq_ok _ _ _ hb1
      cases hb1'
      obtain ⟨tl, htl, hall⟩ := ih _ _ h
      exact ⟨Event.telemetry r :: tl, by simp [htl], List.Forall₂.cons ⟨r, hr, rfl⟩ hall⟩
  obtain ⟨tl, htl, hall⟩ := key occs [] events h
  simp only [List.nil_append] at htl
  exact htl ▸ hall

/-- On standard output `exportAsJSON` prints every event of the batch, in
order. -/
theorem exportAsJSON_stdout (W : SinkWorld) (C : Codec) (events : List Event) :
    ∀ s : SinkExporter, s.config.Export = Export.StdOutExport →
      s.exportAsJSON W C events = Result.ok { s with out := { s.out with
        trace := s.out.trace ++
          events.map (fun e => "\x1b[1;34m" ++ e.ToJSONStr C ++ "\x1b[0m\n") } } := by
  induction events with
  | nil => intro s _; simp [SinkExporter.exportAsJSON, foldlR]
  | cons e es ih =>
    intro s hs
    unfold SinkExporter.exportAsJSON at ih ⊢
    simp only [foldlR, SinkExporter.exportOne, hs, if_true, Result.bind]
    refine (ih { s with out := { s.out with
      trace := s.out.trace ++ ["\x1b[1;34m" ++ e.ToJSONStr C ++ "\x1b[0m\n"] } } hs).trans ?_
    simp

/-- With the JSON format on standard output, one flush of a telemetry
exporter prints one serialized event per buffered record, in buffer
order. -/
theorem process_JSON_stdout (E : Engine) (W : SinkWorld) (C : Codec) (s : SinkExporter)
    (events : List Event) (hfmt : s.config.Format = Format.JSONFormat)
    (hexp : s.config.Export = Export.StdOutExport)
    (hev : s.createEvents E C = Result.ok events) :
    s.process E W C = Result.ok { s with out := { s.out with
      trace := s.out.trace ++
        events.map (fun e => "\x1b[1;34m" ++ e.ToJSONStr C ++ "\x1b[0m\n") } } ∧
    (s.config.ExpType = ExportType.TelemetryType → events.length = s.recs.length) := by
  refine ⟨?_, ?_⟩
  · unfold SinkExporter.process
    rw [hev]
    simp only [Result.bind, SinkExporter.export, hfmt, if_true]
    exact exportAsJSON_stdout W C events s hexp
  · intro hty
    unfold SinkExporter.createEvents at hev
    simp only [hty, if_false] at hev
    exact (CreateTelemetryRecords_spec E s.config s.recs events hev).length_eq.symm

set_option maxRecDepth 8000 in
/-- C12 fails for the ECS shape: with `Format = ECSFormat` a flush builds
the events and delivers none of them, whatever the sink and the buffer; on
two buffered records the two events are marked for the ECS serializer and
nothing is written. -/
theorem process_ECS_delivers_nothing (E : Engine) (W : SinkWorld) (C : Codec)
    (s : SinkExporter) (cfg : Config) :
    ({ s with config := { cfg with Format := Format.ECSFormat } }.process E W C
      = ({ s with config := { cfg with Format := Format.ECSFormat } }.createEvents E C).bind
          (fun _ => Result.ok { s with config := { cfg with Format := Format.ECSFormat } })) ∧
    ((flushing ecsConfig [hostNetRecord, orphanFileRecord]).createEvents sysflow demoCodec
      ).isPanic = false ∧
    (((flushing ecsConfig [hostNetRecord, orphanFileRecord]).createEvents sysflow demoCodec
      ).getD []).map (Event.ToJSONStr demoCodec) = ["ecs:NF", "ecs:FF"] ∧
    (flushing ecsConfig [hostNetRecord, orphanFileRecord]).process sysflow goodWorld demoCodec
      = Result.ok (flushing ecsConfig [hostNetRecord, orphanFileRecord]) ∧
    (flushing ecsConfig [hostNetRecord, orphanFileRecord]).out = Sinks.empty := by
  refine ⟨?_, by decide, by decide, by decide, rfl⟩
  unfold SinkExporter.process SinkExporter.export
  simp

/-- The file sink after a batch: every event costs one open and one write,
and the file gains the events whose open and write both succeeded. -/
theorem exportAsJSON_file_aux (W : SinkWorld) (C : Codec) (events : List Event) :
    ∀ s : SinkExporter, s.config.Export = Export.FileExport →
      ∃ s', s.exportAsJSON W C events = Result.ok s' ∧
        s'.config = s.config ∧
        s'.out.opens = s.out.opens + events.length ∧
        s'.out.writes = s.out.writes + events.length ∧
        s'.out.file = s.out.file ++ appended W C s.out.opens s.out.writes events ∧
        s'.out.trace = s.out.trace ∧ s'.out.syslog = s.out.syslog := by
  induction events with
  | nil =>
    intro s _
    exact ⟨s, rfl, rfl, rfl, rfl, by simp [appended], rfl, rfl⟩
  | cons e es ih =>
    intro s hs
    unfold SinkExporter.exportAsJSON at ih ⊢
    simp only [foldlR]
    have hstep : ∃ s1, SinkExporter.exportOne W C s e = Result.ok s1 ∧
        s1.config = s.config ∧ s1.out.opens = s.out.opens + 1 ∧
        s1.out.writes = s.out.writes + 1 ∧
        s1.out.file = s.out.file ++
          (if W.openOK s.out.opens && W.writeOK s.out.writes then [e.ToJSONStr C ++ "\n"]
           else []) ∧
        s1.out.trace = s.out.trace ∧ s1.out.syslog = s.out.syslog := by
      unfold SinkExporter.exportOne
      simp only [hs]
      by_cases ho : W.openOK s.out.opens = true <;>
        by_cases hw : W.writeOK s.out.writes = true <;>
        simp [ho, hw]
    obtain ⟨s1, hs1, hc1, ho1, hw1, hf1, ht1, hy1⟩ := hstep
    rw [hs1]
    simp only [Result.bind]
    obtain ⟨s', hs', hc', ho', hw', hf', ht', hy'⟩ := ih s1 (by rw [hc1]; exact hs)
    refine ⟨s', hs', by rw [hc', hc1], ?_, ?_, ?_, by rw [ht', ht1], by rw [hy', hy1]⟩
    · rw [ho', ho1, List.length_cons]; omega
    · rw [hw', hw1, List.length_cons]; omega
    · rw [hf', hf1, ho1, hw1]
      simp [appended]

/-- C14: with the file sink, whatever opens and writes fail, `exportAsJSON`
returns after one open and one write attempt per event of the batch, in
order, without a panic; the file gains, in order and each followed by a
newline, exactly the events whose open and write both succeed, the others
being dropped. -/
theorem exportAsJSON_file (W : SinkWorld) (C : Codec) (s : SinkExporter)
    (events : List Event) (hfile : s.config.Export = Export.FileExport) :
    ∃ s', s.exportAsJSON W C events = Result.ok s' ∧
      s'.out.opens = s.out.opens + events.length ∧
      s'.out.writes = s.out.writes + events.length ∧
      s'.out.file = s.out.file ++ appended W C s.out.opens s.out.writes events := by
  obtain ⟨s', h1, _, h2, h3, h4, _, _⟩ := exportAsJSON_file_aux W C events s hfile
  exact ⟨s', h1, h2, h3, h4⟩

set_option maxRecDepth 8000 in
/-- C14 on a batch of five events when the second open and the fourth write
fail: five opens, five writes, and the first, third and fifth events in the
file. -/
theorem exportAsJSON_file_witness :
    (∃ s', (flushing fileConfig []).exportAsJSON flakyWorld demoCodec
        [Event.offense "e1", Event.offense "e2", Event.offense "e3", Event.offense "e4",
          Event.offense "e5"] = Result.ok s' ∧
      s'.out.opens = (flushing fileConfig []).out.opens + 5 ∧
      s'.out.writes = (flushing fileConfig []).out.writes + 5 ∧
      s'.out.file = (flushing fileConfig []).out.file ++
        appended flakyWorld demoCodec (flushing fileConfig []).out.opens
          (flushing fileConfig []).out.writes
          [Event.offense "e1", Event.offense "e2", Event.offense "e3", Event.offense "e4",
            Event.offense "e5"]) ∧
    appended flakyWorld demoCodec 0 0
      [Event.offense "e1", Event.offense "e2", Event.offense "e3", Event.offense "e4",
        Event.offense "e5"] = ["e1\n", "e3\n", "e5\n"] :=
  ⟨exportAsJSON_file flakyWorld demoCodec (flushing fileConfig [])
    [Event.offense "e1", Event.offense "e2", Event.offense "e3", Event.offense "e4",
      Event.offense "e5"] (by decide), by decide⟩

end exporter

/-! ## The module cache -/

namespace pipeline

/-- `GetPlugin` never changes the handle cached for a path. -/
theorem GetPlugin_keeps (w : World) (p : PluginCache) (mod mod0 : String) (plug : Plugin)
    (h : GoMap.get? p.pluginMap mod0 = some plug) :
    GoMap.get? (p.GetPlugin w mod).2.pluginMap mod0 = some plug := by
  unfold PluginCache.GetPlugin
  cases h0 : GoMap.get? p.pluginMap mod with
  | some val => exact h
  | none =>
    have hne : mod ≠ mod0 := by
      intro heq
      rw [heq, h] at h0
      exact Option.noConfusion h0
    cases w.openModule p.opens mod with
    | none => exact h
    | some plug' =>
      simp only [GoMap.set, GoMap.get?, hne, if_false]
      exact h

/-- The module cache after `GetHandler` is the one `GetPlugin` leaves, or
the one before. -/
theorem GetHandler_pluginMap (w : World) (p : PluginCache) (mod name : String) :
    (p.GetHandler w mod name).2.pluginMap = p.pluginMap ∨
      (p.GetHandler w mod name).2.pluginMap = (p.GetPlugin w mod).2.pluginMap := by
  unfold PluginCache.GetHandler
  cases GoMap.get? p.hdlFuncMap name with
  | some val => left; dsimp only; split <;> rfl
  | none =>
    right
    dsimp only
    rcases hgp : p.GetPlugin w mod with ⟨r, p1⟩
    cases r with
    | ok plug =>
      dsimp only
      cases plug.Lookup ("New" ++ name) with
      | ok sym => dsimp only; split <;> rfl
      | err m => rfl
      | panic m => rfl
    | err m => rfl
    | panic m => rfl

/-- The module cache after `GetProcessor` is the one `GetPlugin` leaves, or
the one before. -/
theorem GetProcessor_pluginMap (w : World) (p : PluginCache) (mod name : String)
    (hdl : SFHandler) (hdlr : Bool) :
    (p.GetProcessor w mod name hdl hdlr).2.pluginMap = p.pluginMap ∨
      (p.GetProcessor w mod name hdl hdlr).2.pluginMap = (p.GetPlugin w mod).2.pluginMap := by
  unfold PluginCache.GetProcessor
  cases GoMap.get? p.procFuncMap name with
  | some val => left; dsimp only; split <;> split <;> rfl
  | none =>
    right
    dsimp only
    rcases hgp : p.GetPlugin w mod with ⟨r, p1⟩
    cases r with
    | ok plug =>
      dsimp only
      cases plug.Lookup ("New" ++ name) with
      | ok sym => dsimp only; split <;> split <;> rfl
      | err m => rfl
      | panic m => rfl
    | err m => rfl
    | panic m => rfl

/-- The module cache after `GetChan` is the one `GetPlugin` leaves, or the
one before. -/
theorem GetChan_pluginMap (w : World) (p : PluginCache) (mod ch : String) (size : Int) :
    (p.GetChan w mod ch size).2.pluginMap = p.pluginMap ∨
      (p.GetChan w mod ch size).2.pluginMap = (p.GetPlugin w mod).2.pluginMap := by
  unfold PluginCache.GetChan
  dsimp only
  split
  · rename_i f0 f1 _
    cases GoMap.get? p.chanMap f0 with
    | some val => left; rfl
    | none =>
      dsimp only
      cases GoMap.get? p.chanFuncMap f1 with
      | some val => left; dsimp only; split <;> rfl
      | none =>
        right
        dsimp only
        rcases hgp : p.GetPlugin w mod with ⟨r, p1⟩
        cases r with
        | ok plug =>
          dsimp only
          cases plug.Lookup ("New" ++ f1) with
          | ok sym => dsimp only; split <;> rfl
          | err m => rfl
          | panic m => rfl
        | err m => rfl
        | panic m => rfl
  · left; rfl

/-- No client call changes the handle cached for a path. -/
theorem Call_run_keeps_plugin (w : World) (p : PluginCache) (call : Call) (mod0 : String)
    (plug : Plugin) (h : GoMap.get? p.pluginMap mod0 = some plug) :
    GoMap.get? (call.run w p).pluginMap mod0 = some plug := by
  cases call with
  | getPlugin mod => exact GetPlugin_keeps w p mod mod0 plug h
  | getHandler mod name =>
    rcases GetHandler_pluginMap w p mod name with h' | h'
    · simp only [Call.run, h', h]
    · simp only [Call.run, h']; exact GetPlugin_keeps w p mod mod0 plug h
  | getChan mod ch size =>
    rcases GetChan_pluginMap w p mod ch size with h' | h'
    · simp only [Call.run, h', h]
    · simp only [Call.run, h']; exact GetPlugin_keeps w p mod mod0 plug h
  | getProcessor mod name hdl hdlr =>
    rcases GetProcessor_pluginMap w p mod name hdl hdlr with h' | h'
    · simp only [Call.run, h', h]
    · simp only [Call.run, h']; exact GetPlugin_keeps w p mod mod0 plug h

theorem runCalls_keeps_plugin (w : World) (cs : List Call) (p : PluginCache) (mod0 : String)
    (plug : Plugin) (h : GoMap.get? p.pluginMap mod0 = some plug) :
    GoMap.get? (runCalls w p cs).pluginMap mod0 = some plug := by
  induction cs generalizing p with
  | nil => exact h
  | cons call rest ih => exact ih (call.run w p) (Call_run_keeps_plugin w p call mod0 plug h)

/-- C17: once `GetPlugin` has succeeded for a path, then after any further
client calls `GetPlugin` for that path returns the same handle and leaves
the cache as it is, the count of `plugin.Open` calls included; the first
call left the handles cached for the other paths as they were; and a
`GetPlugin` whose open fails leaves the module cache as it was, with nothing
cached for its path. -/
theorem GetPlugin_cached (w : World) (p p1 : PluginCache) (mod : String) (plug : Plugin)
    (h : p.GetPlugin w mod = (Result.ok plug, p1)) :
    (∀ cs : List Call,
      (runCalls w p1 cs).GetPlugin w mod = (Result.ok plug, runCalls w p1 cs)) ∧
    (∀ mod' : String, mod' ≠ mod →
      GoMap.get? p1.pluginMap mod' = GoMap.get? p.pluginMap mod') ∧
    (∀ (q q' : PluginCache) (m msg : String), q.GetPlugin w m = (Result.err msg, q') →
      q'.pluginMap = q.pluginMap ∧ GoMap.get? q'.pluginMap m = none) := by
  have hbound : GoMap.get? p1.pluginMap mod = some plug ∧
      ∀ mod' : String, mod' ≠ mod →
        GoMap.get? p1.pluginMap mod' = GoMap.get? p.pluginMap mod' := by
    unfold PluginCache.GetPlugin at h
    cases h0 : GoMap.get? p.pluginMap mod with
    | some val =>
      simp only [h0, Prod.mk.injEq, Result.ok.injEq] at h
      obtain ⟨hv, hp⟩ := h
      subst hp
      exact ⟨by rw [h0, hv], fun _ _ => rfl⟩
    | none =>
      simp only [h0] at h
      cases ho : w.openModule p.opens mod with
      | none => simp [ho] at h
      | some plug' =>
        simp only [ho, Prod.mk.injEq, Result.ok.injEq] at h
        obtain ⟨hv, hp⟩ := h
        subst hp
        subst hv
        refine ⟨by simp [GoMap.set, GoMap.get?], ?_⟩
        intro mod' hne
        simp [GoMap.set, GoMap.get?, Ne.symm hne]
  refine ⟨?_, hbound.2, ?_⟩
  · intro cs
    have := runCalls_keeps_plugin w cs p1 mod plug hbound.1
    unfold PluginCache.GetPlugin
    simp only [this]
  · intro q q' m msg hq
    unfold PluginCache.GetPlugin at hq
    cases h0 : GoMap.get? q.pluginMap m with
    | some val => simp [h0] at hq
    | none =>
      simp only [h0] at hq
      cases ho : w.openModule q.opens m with
      | none =>
        simp only [ho, Prod.mk.injEq, Result.err.injEq] at hq
        obtain ⟨_, hq'⟩ := hq
        subst hq'
        exact ⟨rfl, h0⟩
      | some plug' => simp [ho] at hq

/-- C17 on a world with one module: the module is opened once, found again
after other calls without a further open, and a path that fails to open is
not cached. -/
theorem GetPlugin_cached_witness :
    ((∀ cs : List Call,
      (runCalls extWorld extCache cs).GetPlugin extWorld "ext.so"
        = (Result.ok { path := "ext.so", symbols := [("NewExporter", Sig.procFactory)] },
            runCalls extWorld extCache cs)) ∧
    (∀ mod' : String, mod' ≠ "ext.so" →
      GoMap.get? extCache.pluginMap mod' = GoMap.get? (NewPluginCache stdBuiltins).pluginMap mod') ∧
    (∀ (q q' : PluginCache) (m msg : String), q.GetPlugin extWorld m = (Result.err msg, q') →
      q'.pluginMap = q.pluginMap ∧ GoMap.get? q'.pluginMap m = none)) ∧
    extCache.opens = 1 ∧
    (runCalls extWorld extCache
      [Call.getProcessor "ext.so" "Exporter" { ctor := "Flattener" } false,
       Call.getPlugin "missing.so", Call.getPlugin "ext.so"]).opens = 2 ∧
    GoMap.get? (runCalls extWorld extCache [Call.getPlugin "missing.so"]).pluginMap "missing.so"
      = none :=
  ⟨GetPlugin_cached extWorld (NewPluginCache stdBuiltins) extCache "ext.so"
    { path := "ext.so", symbols := [("NewExporter", Sig.procFactory)] } (by decide),
   by decide, by decide, by decide⟩

end pipeline

/-! ## When the structured transcoder returns -/

namespace exporter

/-- The body of the structured loop returns exactly on the paths that fit,
whatever the record built so far. -/
theorem structStep_ok_iff (E : Engine) (rec : Record) (pe ce : Bool) (r : DataRecord)
    (k : String) :
    (∃ r', structStep E rec pe ce r k = Result.ok r') ↔ fits E rec k := by
  unfold fits structStep Engine.value attrKey
  cases hm : E.Mappers k with
  | none => simp
  | some m =>
    simp only [Option.isSome_some, true_and]
    split
    · rename_i a kc1 hs
      simp only [hs, Option.some.injEq, forall_eq']
      cases hv : extractValue E k (m rec) with
      | str s =>
        simp only [DataRecord.SetString]
        by_cases h : strings.Title kc1 = "Type" <;> simp [h]
      | int64 i =>
        simp only [DataRecord.SetInt]
        by_cases h1 : strings.Title kc1 = "Ret"
        · simp [h1]
        · by_cases h2 : strings.Title kc1 = "Ts"
          · simp [h1, h2]
          · by_cases h3 : strings.Title kc1 = "Endts"
            · simp [h1, h2, h3]
            · by_cases h4 : strings.Title kc1 = "Schema" <;> simp [h1, h2, h3, h4]
      | strs l =>
        simp only [DataRecord.Set]
        by_cases h : strings.Title kc1 = "Opflags" <;> simp [h]
      | nil => simp
      | other x => simp
    · rename_i a kc1 kc2 hs
      constructor
      · intro _ n hn
        simp [hs] at hn
      · intro _
        split_ifs <;> exact ⟨_, rfl⟩
    · rename_i hn2 hn3
      constructor
      · intro _ n hn
        split at hn
        · rename_i a kc1 hs
          exact absurd hs (hn2 a kc1)
        · exact Option.noConfusion hn
      · intro _
        exact ⟨r, rfl⟩

theorem foldlR_ok_iff {α β : Type} (f : β → α → Result β) (good : α → Prop)
    (hf : ∀ b a, (∃ b', f b a = Result.ok b') ↔ good a) (l : List α) :
    ∀ b, (∃ b', foldlR f b l = Result.ok b') ↔ ∀ a ∈ l, good a := by
  induction l with
  | nil => intro b; simp [foldlR]
  | cons a l ih =>
    intro b
    simp only [foldlR, List.mem_cons, forall_eq_or_imp]
    constructor
    · rintro ⟨b', h⟩
      obtain ⟨b1, hb1, h⟩ := bind_eq_ok _ _ _ h
      exact ⟨(hf b a).mp ⟨b1, hb1⟩, (ih b1).mp ⟨b', h⟩⟩
    · rintro ⟨ha, hl⟩
      obtain ⟨b1, hb1⟩ := (hf b a).mpr ha
      obtain ⟨b', hb'⟩ := (ih b1).mpr hl
      exact ⟨b', by rw [hb1]; exact hb'⟩

/-- The structured `extractTelemetryRecord` returns a record exactly when
every listed path fits; otherwise it panics. -/
theorem extract_struct_returns_iff (E : Engine) (rec : Record) (cfg : Config)
    (hflat : cfg.Flat = false) :
    (∃ out, extractTelemetryRecord E rec cfg = Result.ok out) ↔ ∀ k ∈ E.Fields, fits E rec k := by
  rw [← foldlR_ok_iff (structStep E rec (decide (E.MapInt E.SF_PPROC_PID rec ≠ 0))
    (decide (E.MapStr E.SF_CONTAINER_ID rec ≠ ""))) (fits E rec)
    (fun b a => structStep_ok_iff E rec _ _ b a) E.Fields DataRecord.new]
  constructor
  · rintro ⟨out, h⟩
    obtain ⟨d, _, _, hd⟩ := extract_struct E rec cfg out hflat h
    exact ⟨d, hd⟩
  · rintro ⟨d, hd⟩
    unfold extractTelemetryRecord
    simp only [hflat, Bool.false_eq_true, if_false, hd, Result.bind]
    exact ⟨_, rfl⟩

/-- The flat `extractTelemetryRecord` returns a record exactly when every
listed path has a mapper. -/
theorem extract_flat_returns_iff (E : Engine) (rec : Record) (cfg : Config)
    (hflat : cfg.Flat = true) :
    (∃ out, extractTelemetryRecord E rec cfg = Result.ok out) ↔
      ∀ k ∈ E.Fields, (E.Mappers k).isSome = true := by
  rw [← foldlR_ok_iff (flatStep E rec) (fun k => (E.Mappers k).isSome = true)
    (fun b a => by
      unfold flatStep
      cases hma : E.Mappers a <;> simp [hma]) E.Fields []]
  constructor
  · rintro ⟨out, h⟩
    obtain ⟨d, _, hd⟩ := extract_flat E rec cfg out hflat h
    exact ⟨d, hd⟩
  · rintro ⟨d, hd⟩
    unfold extractTelemetryRecord
    simp only [hflat, if_true, hd, Result.bind]
    exact ⟨_, rfl⟩

end exporter
